import Mathlib

/-!
Verification of the transaction resolution and aggregation pipeline of the
`concourse_analytics` POS analytics scripts.

The Python sources are shallowly embedded as Lean functions:
  * CSV cells are `String`s; money/quantity values are exact rationals (`Rat`),
    which model the decimal values the scripts read from the POS exports;
  * fallible parsing (`float(...)`, `int(...)`, `strptime`) returns
    `Option`/`Except`;
  * the per-script dictionaries (`defaultdict`) become association lists
    folded in iteration order.

Each definition carries a comment naming the Python function it embeds.
-/

namespace Concourse

/-! ## Raw line items

Embeds the dict yielded per CSV row by `read_all_csvs`
(`scripts/export_dashboards.py`) and by the `_read_transactions` helpers of
the single-file scripts.  `itemType` stays a string, exactly as the scripts
compare it (`r['item_type'] == 'Package'` etc.). -/

structure RawItem where
  txnId : String
  itemId : Int
  name : String
  itemType : String
  department : String
  subdepartment : String
  qty : Rat
  unitPrice : Rat
  itemTotal : Rat
  date : String
deriving DecidableEq

instance : Inhabited RawItem :=
  ⟨{ txnId := "", itemId := 0, name := "", itemType := "", department := "",
     subdepartment := "", qty := 0, unitPrice := 0, itemTotal := 0, date := "" }⟩

/-! ## Modifier resolver

Embeds the per-transaction walk shared (with small variations) by
`resolve_all_products` (`export_dashboards.py`),
`_resolve_products` (`build_bar_dashboard.py`) and
`_resolve_products` (`export_clean_csv.py`).  The walk runs over the
transaction's rows already sorted ascending by `item_id`
(`rows.sort(key=lambda r: r['item_id'])`), with mutable state
`(current_product, modifier_cost)`. -/

/-- Backfill rule applied at every flush: `if current['unit_price'] == 0 and
mod_cost > 0: current['unit_price'] = mod_cost` before yielding. -/
def backfill (p : RawItem) (modCost : Rat) : RawItem :=
  if p.unitPrice = 0 ∧ 0 < modCost then { p with unitPrice := modCost } else p

/-- Flush of the current product: yield it (after backfill) when non-null. -/
def flushItem : Option RawItem → Rat → List RawItem
  | none, _ => []
  | some p, mc => [backfill p mc]

/-- Package-row handling differs between the scripts: `export_dashboards.py`
and `build_bar_dashboard.py` flush the current product and then emit the
package row itself (unconditionally resp. only when its name is in the
allow-set); `export_clean_csv.py` has no `Package` branch at all, so a
package row leaves the walk state untouched. -/
inductive PkgMode where
  | emit (pkgOk : RawItem → Bool)
  | ignore

/-- Core of the modifier-resolution walk, parameterised by the product
qualification test (`prodOk`, the allow-set/department check of the script)
and the package handling.  Mirrors the `for r in rows` loop bodies of the
three `_resolve_products`/`resolve_all_products` functions, including the
end-of-transaction flush. -/
def resolveGo (prodOk : RawItem → Bool) (pm : PkgMode) :
    List RawItem → Option RawItem → Rat → List RawItem
  | [], cur, mc => flushItem cur mc
  | r :: rs, cur, mc =>
    if r.itemType = "Package" then
      match pm with
      | .emit pkgOk =>
        match cur with
        | some p =>
            backfill p mc ::
              ((if pkgOk r then [r] else []) ++ resolveGo prodOk pm rs none 0)
        | none =>
            (if pkgOk r then [r] else []) ++ resolveGo prodOk pm rs none mc
      | .ignore => resolveGo prodOk pm rs cur mc
    else if r.itemType = "Product" then
      flushItem cur mc ++
        (if prodOk r then resolveGo prodOk pm rs (some r) 0
         else resolveGo prodOk pm rs none 0)
    else if r.itemType = "Modifier" then
      match cur with
      | some p => resolveGo prodOk pm rs (some p) (mc + r.unitPrice)
      | none => resolveGo prodOk pm rs none mc
    else
      resolveGo prodOk pm rs cur mc

/-- Walk of `resolve_all_products` (`export_dashboards.py`): every product
becomes the current product, every package row is emitted. -/
def resolve_all_products_go : List RawItem → Option RawItem → Rat → List RawItem :=
  resolveGo (fun _ => true) (.emit (fun _ => true))

/-- Walk of `_resolve_products` (`build_bar_dashboard.py`): a product
qualifies when its name is in the allow-set and its department is `"Bar"`;
a package row is emitted when its name is in the allow-set. -/
def resolve_products_bar_go (allowed : List String) :
    List RawItem → Option RawItem → Rat → List RawItem :=
  resolveGo (fun r => decide (r.name ∈ allowed) && decide (r.department = "Bar"))
    (.emit (fun r => decide (r.name ∈ allowed)))

/-- Walk of `_resolve_products` (`export_clean_csv.py`): a product qualifies
when its name is in the allow-set and its department is `"Food"`; there is
no package branch. -/
def resolve_products_food_go (allowed : List String) :
    List RawItem → Option RawItem → Rat → List RawItem :=
  resolveGo (fun r => decide (r.name ∈ allowed) && decide (r.department = "Food"))
    .ignore

/-- Per-transaction entry point: the scripts sort the transaction's rows
ascending by `item_id` and start the walk with no current product and zero
accumulated modifier cost. -/
def resolveTxn (prodOk : RawItem → Bool) (pm : PkgMode) (rows : List RawItem) :
    List RawItem :=
  resolveGo prodOk pm (rows.mergeSort (fun a b => a.itemId ≤ b.itemId)) none 0

/-! ## Aggregation to item x date rows

Embeds `aggregate_item_date` (`scripts/export_dashboards.py`): a
`defaultdict` keyed by `(name, date, department)` accumulating quantity,
revenue and transaction counts, followed by row building (category
resolution, rounding), a department denylist filter, and a sort by
`(date, department, name)`. -/

/-- Association-list lookup; models Python `dict` lookup. -/
def alGet {K B : Type} [DecidableEq K] : List (K × B) → K → Option B
  | [], _ => none
  | (k', b) :: tl, k => if k' = k then some b else alGet tl k

/-- Association-list update-with-default; models `defaultdict` access
`agg[key]` followed by field updates.  A new key is appended at the end,
matching Python dict insertion order. -/
def alUpdate {K B : Type} [DecidableEq K] (k : K) (d : B) (f : B → B) :
    List (K × B) → List (K × B)
  | [] => [(k, f d)]
  | (k', b) :: tl => if k' = k then (k', f b) :: tl else (k', b) :: alUpdate k d f tl

/-- Accumulator value of the `agg` defaultdict in `aggregate_item_date`. -/
structure Bucket where
  quantity : Rat
  revenue : Rat
  transactions : Nat
  subdepartment : String
deriving DecidableEq

/-- Default bucket `{'quantity': 0.0, 'revenue': 0.0, 'transactions': 0,
'subdepartment': ''}`. -/
def emptyBucket : Bucket :=
  { quantity := 0, revenue := 0, transactions := 0, subdepartment := "" }

/-- Revenue of one resolved item, line 248 of `export_dashboards.py`:
`revenue = item_total if item_total != 0 else (unit_price * qty if qty else
unit_price)` (the same formula appears in `load_bowling_data` of
`bowling_seasonality.py`).  Python `if qty` is nonzero-ness, not
positivity. -/
def itemRevenue (p : RawItem) : Rat :=
  if p.itemTotal ≠ 0 then p.itemTotal
  else if p.qty ≠ 0 then p.unitPrice * p.qty
  else p.unitPrice

/-- One iteration of the accumulation loop of `aggregate_item_date`. -/
def aggStep (m : List ((String × String × String) × Bucket)) (p : RawItem) :
    List ((String × String × String) × Bucket) :=
  alUpdate (p.name, p.date, p.department) emptyBucket
    (fun b =>
      { quantity := b.quantity + p.qty,
        revenue := b.revenue + itemRevenue p,
        transactions := b.transactions + 1,
        subdepartment := if p.subdepartment ≠ "" then p.subdepartment else b.subdepartment })
    m

/-- The full `agg` map after folding all resolved products. -/
def aggMap (products : List RawItem) : List ((String × String × String) × Bucket) :=
  products.foldl aggStep []

/-- Revenue accumulated in the bucket of a given `(name, date, department)`
key (0 when the bucket does not exist, as for `defaultdict(float)`). -/
def bucketRevenue (products : List RawItem) (k : String × String × String) : Rat :=
  ((alGet (aggMap products) k).map Bucket.revenue).getD 0

/-- Python `round(q)` / the rounding step of `round(q, 2)`: round half to
even (banker's rounding) on the exact rational value. -/
def roundHalfEven (q : Rat) : Int :=
  let f := ⌊q⌋
  let r := q - (f : Rat)
  if r < 1/2 then f
  else if 1/2 < r then f + 1
  else if f % 2 = 0 then f else f + 1

/-- Python `round(q, 2)` on the exact rational value. -/
def round2 (q : Rat) : Rat := (roundHalfEven (q * 100) : Rat) / 100

/-- One output row of `aggregate_item_date`. -/
structure OutRow where
  date : String
  name : String
  department : String
  subdepartment : String
  category : String
  quantity : Int
  revenue : Rat
  transactions : Nat
deriving DecidableEq

/-- Row building step of `aggregate_item_date`: in particular the category
chain `category_overrides.get(name) or subdept or dept` (Python `or` takes
the first truthy, i.e. nonempty, value). -/
def buildRow (category_overrides : List (String × String))
    (k : String × String × String) (b : Bucket) : OutRow :=
  { date := k.2.1, name := k.1, department := k.2.2,
    subdepartment := b.subdepartment,
    category :=
      (if ((alGet category_overrides k.1).getD "") ≠ ""
       then (alGet category_overrides k.1).getD ""
       else if b.subdepartment ≠ "" then b.subdepartment else k.2.2),
    quantity := roundHalfEven b.quantity,
    revenue := round2 b.revenue,
    transactions := b.transactions }

/-- Department denylist `SKIP_DEPARTMENTS` of `aggregate_item_date`. -/
def SKIP_DEPARTMENTS : List String := ["", "TEST DEPARTMENT", "Parties test"]

/-- Sort key comparison: by `(date, department, name)`, lexicographically on
strings, as in `rows.sort(key=lambda r: (r['date'], r['department'],
r['name']))`. -/
def rowKeyLe (a b : OutRow) : Bool :=
  if a.date ≠ b.date then decide (a.date < b.date)
  else if a.department ≠ b.department then decide (a.department < b.department)
  else decide (a.name < b.name) || decide (a.name = b.name)

/-- Stable insertion into a sorted row list. -/
def insertRow (x : OutRow) : List OutRow → List OutRow
  | [] => [x]
  | y :: ys => if rowKeyLe x y then x :: y :: ys else y :: insertRow x ys

/-- Stable sort of the output rows (Python `list.sort` is stable). -/
def sortRows (l : List OutRow) : List OutRow := l.foldr insertRow []

/-- The function `aggregate_item_date(products, category_overrides)` of
`export_dashboards.py`: accumulate, build rows, drop denylisted departments,
sort. -/
def aggregate_item_date (products : List RawItem)
    (category_overrides : List (String × String)) : List OutRow :=
  sortRows
    (((aggMap products).map
        (fun kb => buildRow category_overrides kb.1 kb.2)).filter
      (fun r => decide (r.department ∉ SKIP_DEPARTMENTS)))

/-! ## Python number and cell parsing

The scripts call `float(cell or 0)` and `int(cell)` on CSV cells and
`str.strip()` on text cells.  Cells are `String`s; parsing is modelled on the
character list, with exact rationals for float values.  The special float
forms `inf`/`nan`, hexadecimal floats and underscore digit separators do not
occur in POS exports and are not modelled. -/

/-- Decimal digit test. -/
def isDig (c : Char) : Bool := decide ('0' ≤ c) && decide (c ≤ '9')

/-- Numeric value of a decimal digit character. -/
def digitVal (c : Char) : Nat := c.toNat - 48

/-- Value of a digit string, most significant digit first. -/
def digitsVal (cs : List Char) : Nat := cs.foldl (fun a c => 10 * a + digitVal c) 0

/-- Strip leading and trailing whitespace from a character list. -/
def stripWs (cs : List Char) : List Char :=
  ((cs.dropWhile Char.isWhitespace).reverse.dropWhile Char.isWhitespace).reverse

/-- Python `str.strip()`. -/
def pyStrip (s : String) : String := ⟨stripWs s.data⟩

/-- Mantissa of a Python float literal: `digits`, `digits.`, `digits.digits`
or `.digits`. -/
def parseMantissa (cs : List Char) : Option Rat :=
  let ip := cs.takeWhile isDig
  match cs.dropWhile isDig with
  | [] => if ip.isEmpty then none else some (digitsVal ip : Nat)
  | '.' :: fr =>
    if fr.all isDig ∧ (¬ ip.isEmpty ∨ ¬ fr.isEmpty) then
      some ((digitsVal ip : Rat) + (digitsVal fr : Rat) / (10 : Rat) ^ fr.length)
    else none
  | _ => none

/-- Signed digit string of a float exponent. -/
def parseExp (cs : List Char) : Option Int :=
  match cs with
  | '-' :: tl => if ¬ tl.isEmpty ∧ tl.all isDig then some (-(digitsVal tl : Int)) else none
  | '+' :: tl => if ¬ tl.isEmpty ∧ tl.all isDig then some (digitsVal tl : Int) else none
  | _ => if ¬ cs.isEmpty ∧ cs.all isDig then some (digitsVal cs : Int) else none

/-- Scale a mantissa by a power of ten. -/
def applyExp (m : Rat) (e : Int) : Rat :=
  if 0 ≤ e then m * (10 : Rat) ^ e.toNat else m / (10 : Rat) ^ (-e).toNat

/-- Unsigned Python float literal: mantissa with optional `e`/`E` exponent. -/
def parseUnsignedFloat (cs : List Char) : Option Rat :=
  let isMantChar : Char → Bool := fun c => decide (c ≠ 'e') && decide (c ≠ 'E')
  match cs.dropWhile isMantChar with
  | [] => parseMantissa cs
  | _ :: ex =>
    match parseMantissa (cs.takeWhile isMantChar), parseExp ex with
    | some m, some e => some (applyExp m e)
    | _, _ => none

/-- Python `float(s)` on a CSV cell, as an exact rational (`none` models the
`ValueError`). -/
def pyFloat (s : String) : Option Rat :=
  match stripWs s.data with
  | [] => none
  | c :: tl =>
    if c = '-' then (parseUnsignedFloat tl).map (fun v => -v)
    else if c = '+' then parseUnsignedFloat tl
    else parseUnsignedFloat (c :: tl)

/-- Python `int(s)` on a CSV cell: optional surrounding whitespace, optional
sign, decimal digits (`none` models the `ValueError`). -/
def pyInt (s : String) : Option Int :=
  match stripWs s.data with
  | '-' :: tl => if ¬ tl.isEmpty ∧ tl.all isDig then some (-(digitsVal tl : Int)) else none
  | '+' :: tl => if ¬ tl.isEmpty ∧ tl.all isDig then some (digitsVal tl : Int) else none
  | cs => if ¬ cs.isEmpty ∧ cs.all isDig then some (digitsVal cs : Int) else none

/-- Subdepartment prefix stripping `normalize_subdepartment`
(`export_dashboards.py`): `re.sub(r'^\d+\.\s*', '', subdept)`, i.e. one or
more digits followed by a dot and optional whitespace are removed from the
front; any other string (including the empty one) is returned unchanged. -/
def normalize_subdepartment (s : String) : String :=
  let cs := s.data
  if (cs.takeWhile (·.isDigit)).isEmpty then s
  else
    match cs.dropWhile (·.isDigit) with
    | '.' :: tl => ⟨tl.dropWhile (·.isWhitespace)⟩
    | _ => s

/-! ## Multi-file CSV reader

Embeds the row loop of `read_all_csvs` (`scripts/export_dashboards.py`).  A
`CsvRow` holds the cells of one data row at the columns resolved from the
header (the `len(row) <= max_idx` width check happens before a row becomes a
`CsvRow`; a header whose `Transaction ID`/`Item ID` columns are missing makes
the whole file skipped, upstream of this model).  `hasTxnType` and `hasTotal`
record whether the optional `Transaction Type` / `Total` columns were present
in the header. -/

structure CsvRow where
  txnId : String
  itemId : String
  name : String
  itemType : String
  department : String
  subdepartment : String
  quantity : String
  unitAmount : String
  total : String
  txnType : String
  deleted : String
  voided : String
  date : String
deriving DecidableEq

/-- Name-merge table `NAME_MERGE` (`export_dashboards.py`). -/
def NAME_MERGE : List (String × String) :=
  [("Carne Asada Taco Plate (3)", "Taco Plate"),
   ("Carnitas Tacos Plate (3)", "Taco Plate"),
   ("Chicken Tacos Plate (3)", "Taco Plate"),
   ("Hummus Trio m", "Hummus Trio"),
   ("Pretzel Sticks m", "Pretzel Sticks"),
   ("Irish Nachos m", "Irish Nachos"),
   ("Sliders m", "Sliders")]

/-- Row filters of the `read_all_csvs` loop, in source order: `Deleted` and
`Voided` must be literally `"False"`, `Transaction Type` must be `"Sales"`
when that column is present, and `Item Type` must be `Product`, `Modifier`
or `Package`. -/
def rowPasses (hasTxnType : Bool) (r : CsvRow) : Bool :=
  decide (r.deleted = "False") && decide (r.voided = "False") &&
  (!hasTxnType || decide (r.txnType = "Sales")) &&
  (decide (r.itemType = "Product") || decide (r.itemType = "Modifier")
    || decide (r.itemType = "Package"))

/-- Deduplication key `(Transaction ID, Item ID)` — the raw cell strings. -/
def rowKey (r : CsvRow) : String × String := (r.txnId, r.itemId)

/-- `float(cell or 0)`: an empty cell parses as 0; a nonempty cell must be a
valid number, otherwise the `ValueError` propagates. -/
def floatCell (s : String) : Except Unit Rat :=
  if s = "" then .ok 0
  else
    match pyFloat s with
    | some v => .ok v
    | none => .error ()

/-- Parsing of one accepted row into the dict yielded by `read_all_csvs`
(lines 150-168 of `export_dashboards.py`): stripped and merged name, float
cells for Quantity / Unit Amount / Total-when-present, `int()` of Item ID,
stripped department, stripped and prefix-normalized subdepartment, stripped
date.  The sequence of `match`es models the left-to-right evaluation, any
failing parse raising. -/
def parseRow (hasTotal : Bool) (r : CsvRow) : Except Unit RawItem :=
  match floatCell r.quantity with
  | .error e => .error e
  | .ok qty =>
    match floatCell r.unitAmount with
    | .error e => .error e
    | .ok unit =>
      match (if hasTotal then floatCell r.total else Except.ok 0) with
      | .error e => .error e
      | .ok tot =>
        match pyInt r.itemId with
        | none => .error ()
        | some iid =>
          .ok { txnId := r.txnId, itemId := iid,
                name := (alGet NAME_MERGE (pyStrip r.name)).getD (pyStrip r.name),
                itemType := r.itemType,
                department := pyStrip r.department,
                subdepartment := normalize_subdepartment (pyStrip r.subdepartment),
                qty := qty, unitPrice := unit, itemTotal := tot,
                date := pyStrip r.date }

/-- Filter-and-dedup phase of the `read_all_csvs` row loop: a row is dropped
when it fails a filter, dropped as a duplicate when its key is already in
the seen-set, and otherwise accepted with its key recorded.  Returns the
accepted rows in order and the final seen-set (modelled as a list of
keys). -/
def acceptRows (hasTxnType : Bool) :
    List CsvRow → List (String × String) → List CsvRow × List (String × String)
  | [], seen => ([], seen)
  | r :: rs, seen =>
    if rowPasses hasTxnType r = false then acceptRows hasTxnType rs seen
    else if rowKey r ∈ seen then acceptRows hasTxnType rs seen
    else
      (r :: (acceptRows hasTxnType rs (rowKey r :: seen)).1,
        (acceptRows hasTxnType rs (rowKey r :: seen)).2)

/-- Error-propagating map over `Except`: the generator raises at the first
bad cell. -/
def exceptMap {A B : Type} (f : A → Except Unit B) : List A → Except Unit (List B)
  | [] => .ok []
  | a :: as =>
    match f a with
    | .error e => .error e
    | .ok b =>
      match exceptMap f as with
      | .error e => .error e
      | .ok bs => .ok (b :: bs)

/-- Extraction of a successful parse (junk value on error); used to state
what a successful run's output is pointwise. -/
def exceptGet {A B : Type} [Inhabited B] (f : A → Except Unit B) (a : A) : B :=
  match f a with
  | .ok b => b
  | .error _ => default

/-- The row pipeline of `read_all_csvs` over the concatenated data rows of
the input files: filters and dedup select the accepted rows, whose parsed
items are the yielded sequence; a numeric parse failure on any accepted row
aborts the run (the single Python loop interleaves acceptance and parsing,
but on a raise the partially-built state is discarded, so the two phases
have the same observable `Except` result). -/
def read_all_csvs_rows (hasTxnType hasTotal : Bool) (rows : List CsvRow)
    (seen : List (String × String)) :
    Except Unit (List RawItem × List (String × String)) :=
  (exceptMap (parseRow hasTotal) (acceptRows hasTxnType rows seen).1).map
    (fun out => (out, (acceptRows hasTxnType rows seen).2))

/-! ## Dates and the ISO calendar

Embeds the date arithmetic the scripts obtain from `datetime`:
`date.isocalendar()` (ISO-8601 year and week number) and `date.weekday()`.
Dates are proleptic-Gregorian calendar dates. -/

structure Date where
  y : Int
  m : Int
  d : Int
deriving DecidableEq

/-- Gregorian leap-year test. -/
def isLeap (y : Int) : Bool :=
  decide ((y % 4 = 0 ∧ y % 100 ≠ 0) ∨ y % 400 = 0)

/-- Days in the months strictly before month `m`, in a non-leap year. -/
def daysBeforeMonth (m : Int) : Int :=
  if m ≤ 1 then 0 else if m = 2 then 31 else if m = 3 then 59
  else if m = 4 then 90 else if m = 5 then 120 else if m = 6 then 151
  else if m = 7 then 181 else if m = 8 then 212 else if m = 9 then 243
  else if m = 10 then 273 else if m = 11 then 304 else 334

/-- Ordinal day within the year (1 = Jan 1). -/
def dayOfYear (dt : Date) : Int :=
  daysBeforeMonth dt.m + (if 2 < dt.m ∧ isLeap dt.y then 1 else 0) + dt.d

/-- Rata-die ordinal of a date, with 0001-01-01 = 1
(`datetime.date.toordinal`). -/
def toOrdinal (dt : Date) : Int :=
  365 * (dt.y - 1) + (dt.y - 1) / 4 - (dt.y - 1) / 100 + (dt.y - 1) / 400
    + dayOfYear dt

/-- ISO weekday, Monday = 1 … Sunday = 7 (0001-01-01 was a Monday in the
proleptic Gregorian calendar). -/
def isoWeekday (dt : Date) : Int := (toOrdinal dt - 1) % 7 + 1

/-- Whether ISO year `y` has 53 weeks: its Jan 1 or its Dec 31 falls on a
Thursday. -/
def isLongIsoYear (y : Int) : Bool :=
  decide (isoWeekday ⟨y, 1, 1⟩ = 4 ∨ isoWeekday ⟨y, 12, 31⟩ = 4)

/-- ISO calendar (year, week) of a date, the first two components of Python
`date.isocalendar()`. -/
def isocalendar (dt : Date) : Int × Int :=
  let w := (dayOfYear dt - isoWeekday dt + 10) / 7
  if w < 1 then (dt.y - 1, if isLongIsoYear (dt.y - 1) then 53 else 52)
  else if w > (if isLongIsoYear dt.y then 53 else 52) then (dt.y + 1, 1)
  else (dt.y, w)

/-! ## ISO-week-by-year aggregation

Embeds `build_52week_by_year` (`scripts/bowling_seasonality.py`) and the
identical `by_year_week` loop of `export_bowling_seasonality`
(`scripts/export_dashboards.py`): for each `(week_start, revenue)` entry of
the weekly map, `week_num = min(iso_week, 52)` and
`by_year_week[year][week_num] += rev`.  The Python nested dict
`{year: {week: rev}}` is flattened to a map keyed by `(year, week)`, which
preserves all lookups and accumulations. -/

/-- One iteration of the `build_52week_by_year` loop. -/
def build52Step (m : List ((Int × Int) × Rat)) (e : Date × Rat) :
    List ((Int × Int) × Rat) :=
  alUpdate ((isocalendar e.1).1, min (isocalendar e.1).2 52) 0
    (fun r => r + e.2) m

/-- The function `build_52week_by_year(weekly)`. -/
def build_52week_by_year (weekly : List (Date × Rat)) :
    List ((Int × Int) × Rat) :=
  weekly.foldl build52Step []

/-- Accumulated revenue of an `(iso year, week)` bucket (0 when absent, as
for `defaultdict(float)`). -/
def yearWeekRevenue (weekly : List (Date × Rat)) (k : Int × Int) : Rat :=
  (alGet (build_52week_by_year weekly) k).getD 0

/-! ## Forecast persistence

Embeds `save_forecast` and `load_forecast` (`scripts/bowling_seasonality.py`):
one CSV record per forecast week, columns `week_start` (`%Y-%m-%d`),
`week_of_year` (clamped to 52), `year`, `predicted_revenue` (`%.2f`) and
`saved_at` (one `datetime.now().isoformat()` per run, passed in as `now`);
loading parses `week_start` with `strptime` and `predicted_revenue` with
`float`. -/

/-- Decimal digit character of `n < 10`. -/
def digitChar (n : Nat) : Char := Char.ofNat (48 + n)

/-- Decimal digit string of a natural number, most significant first:
Python `str(n)` for `n : Nat`. -/
def natDigits (n : Nat) : List Char :=
  if h : n < 10 then [digitChar n]
  else
    have : n / 10 < n := Nat.div_lt_self (by omega) (by norm_num)
    natDigits (n / 10) ++ [digitChar (n % 10)]

/-- Python `str(i)` for integers. -/
def intStr (i : Int) : String :=
  ⟨(if i < 0 then ['-'] else []) ++ natDigits i.natAbs⟩

/-- Two-digit zero-padded field (`%m`, `%d` of `strftime`). -/
def pad2 (n : Nat) : List Char := [digitChar (n / 10), digitChar (n % 10)]

/-- Four-digit zero-padded field (`%Y` of `strftime`, for years up to
9999). -/
def pad4 (n : Nat) : List Char :=
  [digitChar (n / 1000), digitChar (n / 100 % 10),
   digitChar (n / 10 % 10), digitChar (n % 10)]

/-- `strftime('%Y-%m-%d')`. -/
def formatDate (dt : Date) : String :=
  ⟨pad4 dt.y.toNat ++ '-' :: (pad2 dt.m.toNat ++ '-' :: pad2 dt.d.toNat)⟩

/-- `datetime.strptime(s, '%Y-%m-%d')` on the canonical zero-padded form
(`none` models the `ValueError`). -/
def parseDate (s : String) : Option Date :=
  match s.data with
  | [y1, y2, y3, y4, c1, m1, m2, c2, d1, d2] =>
    if [y1, y2, y3, y4].all isDig ∧ c1 = '-' ∧ [m1, m2].all isDig ∧ c2 = '-'
        ∧ [d1, d2].all isDig then
      some ⟨(digitsVal [y1, y2, y3, y4] : Nat), (digitsVal [m1, m2] : Nat),
            (digitsVal [d1, d2] : Nat)⟩
    else none
  | _ => none

/-- Python `f'{q:.2f}'`: fixed two-decimal formatting (round half to even on
the exact value). -/
def format2f (q : Rat) : String :=
  let n := roundHalfEven (q * 100)
  ⟨(if n < 0 then ['-'] else []) ++ natDigits (n.natAbs / 100)
    ++ '.' :: pad2 (n.natAbs % 100)⟩

/-- One record of the persisted forecast CSV, columns as written by
`FORECAST_CSV_COLS`. -/
structure ForecastRow where
  week_start : String
  week_of_year : String
  year : String
  predicted_revenue : String
  saved_at : String
deriving DecidableEq

/-- `save_forecast(forecast_weeks, path)`. -/
def save_forecast (forecast_weeks : List (Date × Rat)) (now : String) :
    List ForecastRow :=
  forecast_weeks.map fun wr =>
    { week_start := formatDate wr.1,
      week_of_year := intStr (min (isocalendar wr.1).2 52),
      year := intStr wr.1.y,
      predicted_revenue := format2f wr.2,
      saved_at := now }

/-- `load_forecast(path)`: the list of `(week_start, predicted_revenue)`
pairs; a date or float parse failure raises (`none`). -/
def load_forecast : List ForecastRow → Option (List (Date × Rat))
  | [] => some []
  | r :: rs =>
    match parseDate r.week_start, pyFloat r.predicted_revenue with
    | some d, some v =>
      match load_forecast rs with
      | some tl => some ((d, v) :: tl)
      | none => none
    | _, _ => none

/-! ## Summary and forecast JSON exports

Embeds `export_summary` and `export_bowling_forecast`
(`scripts/export_dashboards.py`) as pure functions of their data inputs and
of the clock reading `now` (`datetime.now().isoformat()`), so that the claim
about clock-dependence of the outputs can be stated. -/

/-- Python `set.add` on an insertion-ordered duplicate-free list. -/
def setAdd (l : List String) (x : String) : List String :=
  if x ∈ l then l else l ++ [x]

/-- Per-department accumulator of `export_summary`. -/
structure DeptAcc where
  revenue : Rat
  quantity : Int
  transactions : Nat
  items : List String
  categories : List String
  dates : List String
deriving DecidableEq

/-- Default per-department accumulator. -/
def emptyDeptAcc : DeptAcc :=
  { revenue := 0, quantity := 0, transactions := 0, items := [],
    categories := [], dates := [] }

/-- One iteration of the department fold of `export_summary`. -/
def deptStep (m : List (String × DeptAcc)) (r : OutRow) : List (String × DeptAcc) :=
  alUpdate r.department emptyDeptAcc
    (fun d =>
      { revenue := d.revenue + r.revenue,
        quantity := d.quantity + r.quantity,
        transactions := d.transactions + r.transactions,
        items := setAdd d.items r.name,
        categories := setAdd d.categories r.category,
        dates := setAdd d.dates r.date }) m

/-- The `departments` defaultdict of `export_summary`. -/
def deptMap (rows : List OutRow) : List (String × DeptAcc) :=
  rows.foldl deptStep []

/-- Stable string insertion used to model Python `sorted` on strings. -/
def insertStr (x : String) : List String → List String
  | [] => [x]
  | y :: ys => if x < y ∨ x = y then x :: y :: ys else y :: insertStr x ys

/-- Python `sorted` on a list of strings. -/
def sortStrs (l : List String) : List String := l.foldr insertStr []

/-- One department's entry of `summary.json`. -/
structure DeptSummary where
  revenue : Rat
  quantity : Int
  transactions : Nat
  uniqueItems : Nat
  categories : List String
  dateRange : List String
deriving DecidableEq

/-- The per-department summary record built by `export_summary`. -/
def buildDeptSummary (d : DeptAcc) : DeptSummary :=
  let ds := sortStrs d.dates
  { revenue := round2 d.revenue,
    quantity := d.quantity,
    transactions := d.transactions,
    uniqueItems := d.items.length,
    categories := sortStrs d.categories,
    dateRange := match ds with
      | [] => []
      | c :: _ => [c, ds.getLastD ""] }

/-- Category color table `CATEGORY_COLORS` (`export_dashboards.py`). -/
def CATEGORY_COLORS : List (String × String) :=
  [("Appetizers & Sides", "#f5a623"), ("Wings & Chicken", "#ff5252"),
   ("Pizza", "#00e676"), ("Burgers & Sliders", "#00b0ff"),
   ("Sandwiches", "#bb86fc"), ("Tacos & Mexican", "#03dac6"),
   ("Salads", "#c6ff00"), ("Kids Menu", "#ff6eb4"),
   ("Beverages", "#64b5f6"), ("Soups", "#ffd700"),
   ("Party Platters", "#ff9100"), ("Draft Beer", "#f5a623"),
   ("Liquor", "#ff5252"), ("Bottle Beer", "#00e676"),
   ("Mocktails", "#03dac6"), ("Drink tickets", "#bb86fc"),
   ("Beer Buckets", "#00b0ff"), ("Game Bowling", "#f5a623"),
   ("Time Bowling", "#00b0ff"), ("Rental Shoes", "#03dac6"),
   ("Online Lane Reservations", "#bb86fc"), ("VIP SUITES", "#ff6eb4"),
   ("General Parties", "#ff9100"), ("League Fees", "#ffd700"),
   ("League Bowling", "#c6ff00")]

/-- The whole `summary.json` document. -/
structure Summary where
  generatedAt : String
  dateRange : List String
  totalRevenue : Rat
  departments : List (String × DeptSummary)
  categoryColors : List (String × String)
deriving DecidableEq

/-- `export_summary(rows)`: department fold, per-department summaries in
sorted key order, global date range, rounded total revenue, and the
`generatedAt` clock stamp. -/
def export_summary (rows : List OutRow) (now : String) : Summary :=
  let departments := deptMap rows
  let allDates := departments.foldl (fun s kv => kv.2.dates.foldl setAdd s) []
  let allSorted := sortStrs allDates
  { generatedAt := now,
    dateRange := match allSorted with
      | [] => []
      | c :: _ => [c, allSorted.getLastD ""],
    totalRevenue := round2 ((departments.map (fun kv => kv.2.revenue)).sum),
    departments := (sortStrs (departments.map Prod.fst)).map
      (fun dept => (dept, buildDeptSummary ((alGet departments dept).getD emptyDeptAcc))),
    categoryColors := CATEGORY_COLORS }

/-- One row of the `bowling_forecast.json` forecast arrays. -/
structure ForecastJsonRow where
  weekStart : String
  weekOfYear : Int
  year : Int
  predictedRevenue : Rat
deriving DecidableEq

/-- Chronological comparison of calendar dates. -/
def dateLe (a b : Date) : Bool :=
  if a.y ≠ b.y then decide (a.y < b.y)
  else if a.m ≠ b.m then decide (a.m < b.m)
  else decide (a.d ≤ b.d)

/-- Stable insertion for sorting weekly entries by week start. -/
def insertWeek (x : Date × Rat) : List (Date × Rat) → List (Date × Rat)
  | [] => [x]
  | y :: ys => if dateLe x.1 y.1 then x :: y :: ys else y :: insertWeek x ys

/-- `sorted(weekly.items())` by week-start date. -/
def sortWeekly (l : List (Date × Rat)) : List (Date × Rat) := l.foldr insertWeek []

/-- `max(ws.year for ws in weekly.keys())`; the caller guards against an
empty map, and the years of POS data are positive, so a fold from 0 is the
maximum. -/
def maxYear (weekly : List (Date × Rat)) : Int :=
  weekly.foldl (fun m e => max m e.1.y) 0

/-- The current-year actual rows of `export_bowling_forecast`. -/
def bowlingActualRows (weekly : List (Date × Rat)) : List ForecastJsonRow :=
  (sortWeekly weekly).filterMap fun wr =>
    if wr.1.y = maxYear weekly then
      some { weekStart := formatDate wr.1,
             weekOfYear := min (isocalendar wr.1).2 52,
             year := wr.1.y,
             predictedRevenue := round2 wr.2 }
    else none

/-- The whole `bowling_forecast.json` document. -/
structure BowlingForecastJson where
  seasonal : Option (List ForecastJsonRow)
  actual : Option (List ForecastJsonRow)
  generatedAt : String
deriving DecidableEq

/-- `export_bowling_forecast`: the seasonal rows loaded from the forecast
CSV (when nonempty), the current-year actuals from the weekly POS revenue,
and the `generatedAt` clock stamp. -/
def export_bowling_forecast_json (seasonal : List ForecastJsonRow)
    (weekly : List (Date × Rat)) (now : String) : BowlingForecastJson :=
  { seasonal := if seasonal.isEmpty then none else some seasonal,
    actual := if (bowlingActualRows weekly).isEmpty then none
      else some (bowlingActualRows weekly),
    generatedAt := now }

/-- The clock-independent projection of a persisted forecast record: every
column except `saved_at`. -/
def forecastRowData (r : ForecastRow) : String × String × String × String :=
  (r.week_start, r.week_of_year, r.year, r.predicted_revenue)

/-! ## Spec-side comparison definitions for claims C3 and C6 -/

/-- Revenue rule exactly as claim C3 words it: "total when total is nonzero;
otherwise quantity times effectiveUnitPrice when quantity is GREATER THAN 0;
otherwise effectiveUnitPrice alone".  Written from the claim's words, to be
compared with the source-derived `itemRevenue`. -/
def claimRevenueC3 (p : RawItem) : Rat :=
  if p.itemTotal ≠ 0 then p.itemTotal
  else if 0 < p.qty then p.qty * p.unitPrice
  else p.unitPrice

/-- Static name-to-category fallback table `BAR_CATEGORY_MAP`
(`build_bar_dashboard.py`), the "static name-to-category fallback table" of
claim C6. -/
def BAR_CATEGORY_MAP : List (String × String) :=
  [("Bud Light Bucket", "Beer Buckets"),
   ("Coors Banquet Bucket", "Beer Buckets"),
   ("Coors Light Bucket", "Beer Buckets"),
   ("Miller Lite Bucket", "Beer Buckets"),
   ("Blk Chry White Claw Bucket", "Beer Buckets"),
   ("Watermelon White Claw Bucket", "Beer Buckets")]

/-- Category resolution exactly as claim C6 words it: (1) nonempty override
entry, (2) subdepartment after stripping a leading numeric-dot prefix,
(3) static name-to-category fallback table, (4) the department, (5) "Other".
Written from the claim's words, to be compared with the source-derived
pipeline. -/
def claimCategoryC6 (overrides : List (String × String))
    (name subdept dept : String) : String :=
  if ((alGet overrides name).getD "") ≠ "" then (alGet overrides name).getD ""
  else if normalize_subdepartment subdept ≠ "" then normalize_subdepartment subdept
  else
    match alGet BAR_CATEGORY_MAP name with
    | some c => c
    | none => if dept ≠ "" then dept else "Other"

/-! ### Sample rows used by concrete witnesses -/

/-- Sample zero-priced build-your-own product row (spec Scenario A). -/
def byoPizza : RawItem :=
  { txnId := "1001", itemId := 1, name := "BYO Pizza", itemType := "Product",
    department := "Bar", subdepartment := "", qty := 1, unitPrice := 0,
    itemTotal := 0, date := "2025-10-09" }

/-- Sample modifier row with unit price 2. -/
def modPepperoni : RawItem :=
  { txnId := "1001", itemId := 2, name := "Pepperoni", itemType := "Modifier",
    department := "Bar", subdepartment := "", qty := 1, unitPrice := 2,
    itemTotal := 0, date := "2025-10-09" }

/-- Sample modifier row with unit price 1. -/
def modExtraCheese : RawItem :=
  { txnId := "1001", itemId := 3, name := "Extra Cheese", itemType := "Modifier",
    department := "Bar", subdepartment := "", qty := 1, unitPrice := 1,
    itemTotal := 0, date := "2025-10-09" }

/-- Sample qualifying product row following the modifiers. -/
def draftBeer : RawItem :=
  { txnId := "1001", itemId := 4, name := "Draft Beer", itemType := "Product",
    department := "Bar", subdepartment := "10. Draft Beer", qty := 1,
    unitPrice := 6, itemTotal := 6, date := "2025-10-09" }

/-- Sample resolved item with a negative quantity (a refunded line): total 0,
unit price 5, quantity −1. -/
def refundItem : RawItem :=
  { txnId := "900", itemId := 1, name := "Refund Demo", itemType := "Product",
    department := "Bar", subdepartment := "", qty := -1, unitPrice := 5,
    itemTotal := 0, date := "2025-10-01" }

/-- Sample resolved package item whose name is in `BAR_CATEGORY_MAP` and
whose subdepartment is empty. -/
def budLightBucketRow : RawItem :=
  { txnId := "800", itemId := 1, name := "Bud Light Bucket", itemType := "Package",
    department := "Bar", subdepartment := "", qty := 1, unitPrice := 30,
    itemTotal := 30, date := "2025-10-02" }

/-- Decidable equality on `Except`, needed to check reader results on
concrete inputs. -/
instance {E A : Type} [DecidableEq E] [DecidableEq A] :
    DecidableEq (Except E A) := fun x y =>
  match x, y with
  | .ok a, .ok b =>
    if h : a = b then isTrue (by rw [h])
    else isFalse (by intro hc; cases hc; exact h rfl)
  | .error e, .error f =>
    if h : e = f then isTrue (by rw [h])
    else isFalse (by intro hc; cases hc; exact h rfl)
  | .ok _, .error _ => isFalse (by intro hc; cases hc)
  | .error _, .ok _ => isFalse (by intro hc; cases hc)

/-- Sample CSV row that passes every filter and whose numeric cells are
valid. -/
def csvRowGood : CsvRow :=
  { txnId := "1001", itemId := "42", name := "Draft Beer", itemType := "Product",
    department := "Bar", subdepartment := "10. Draft Beer", quantity := "2",
    unitAmount := "6", total := "12", txnType := "Sales", deleted := "False",
    voided := "False", date := "2025-10-09" }

/-- The parsed item of `csvRowGood`. -/
def goodItem : RawItem :=
  { txnId := "1001", itemId := 42, name := "Draft Beer", itemType := "Product",
    department := "Bar", subdepartment := "Draft Beer", qty := 2,
    unitPrice := 6, itemTotal := 12, date := "2025-10-09" }

/-- A voided row with the same dedup key as `csvRowGood`. -/
def csvRowVoided : CsvRow := { csvRowGood with voided := "True" }

/-- A passing row whose Quantity, Unit Amount and Total cells are all
empty. -/
def csvRowEmptyCells : CsvRow :=
  { csvRowGood with itemId := "43", quantity := "", unitAmount := "", total := "" }

/-- The parsed item of `csvRowEmptyCells`. -/
def emptyCellsItem : RawItem :=
  { goodItem with itemId := 43, qty := 0, unitPrice := 0, itemTotal := 0 }

/-- A passing row with a nonempty non-numeric Quantity cell. -/
def csvRowBadQty : CsvRow := { csvRowGood with itemId := "44", quantity := "abc" }

/-- A passing row with a nonempty non-numeric Unit Amount cell. -/
def csvRowBadUnit : CsvRow := { csvRowGood with itemId := "45", unitAmount := "x2" }

/-- A passing row with a nonempty non-numeric Total cell. -/
def csvRowBadTotal : CsvRow := { csvRowGood with itemId := "46", total := "--" }

/-- A row sharing `csvRowGood`'s dedup key but carrying a different Total
cell (as when an export was corrected between overlapping files). -/
def csvRowAltTotal : CsvRow := { csvRowGood with total := "99" }

/-- The parsed item of `csvRowAltTotal`. -/
def altTotalItem : RawItem := { goodItem with itemTotal := 99 }

/-! ### Resolver lemmas -/

/-- Running the walk over a block of modifier rows with a current product
just accumulates their unit prices into the modifier cost. -/
theorem resolveGo_modifiers (prodOk : RawItem → Bool) (pm : PkgMode)
    (mods : List RawItem) (h : ∀ m ∈ mods, m.itemType = "Modifier") :
    ∀ (rest : List RawItem) (p : RawItem) (mc : Rat),
      resolveGo prodOk pm (mods ++ rest) (some p) mc
        = resolveGo prodOk pm rest (some p) (mc + (mods.map (·.unitPrice)).sum) := by
  induction mods with
  | nil => intro rest p mc; simp
  | cons m tl ih =>
    intro rest p mc
    have hm : m.itemType = "Modifier" := h m (List.mem_cons_self m tl)
    have htl : ∀ x ∈ tl, x.itemType = "Modifier" := fun x hx => h x (List.mem_cons_of_mem m hx)
    have h1 : ¬ (m.itemType = "Package") := by rw [hm]; decide
    have h2 : ¬ (m.itemType = "Product") := by rw [hm]; decide
    simp only [List.cons_append, resolveGo, if_neg h1, if_neg h2, if_pos hm, List.append_eq]
    rw [ih htl rest p (mc + m.unitPrice)]
    simp only [List.map_cons, List.sum_cons]
    ring_nf

/-- The sum of the unit prices of a nonempty block of positively priced
modifiers is positive. -/
theorem mods_sum_pos (mods : List RawItem) (hne : mods ≠ [])
    (hpos : ∀ m ∈ mods, 0 < m.unitPrice) :
    0 < (mods.map (·.unitPrice)).sum := by
  apply List.sum_pos
  · intro x hx
    rcases List.mem_map.mp hx with ⟨m, hm, rfl⟩
    exact hpos m hm
  · simpa using hne

/-- Stepping the walk over a product row: flush the current product, then the
row becomes current exactly when it qualifies. -/
theorem resolveGo_product (prodOk : RawItem → Bool) (pm : PkgMode)
    (r : RawItem) (rs : List RawItem) (cur : Option RawItem) (mc : Rat)
    (hr : r.itemType = "Product") :
    resolveGo prodOk pm (r :: rs) cur mc
      = flushItem cur mc ++
          (if prodOk r then resolveGo prodOk pm rs (some r) 0
           else resolveGo prodOk pm rs none 0) := by
  have h1 : ¬ (r.itemType = "Package") := by rw [hr]; decide
  simp only [resolveGo, if_neg h1, if_pos hr]

/-- A qualifying zero-priced product followed by a nonempty block of
positively priced modifiers and then a product/package row (or the end of the
transaction) is emitted with its unit price replaced by the modifier sum. -/
theorem resolveGo_backfilled_emit (prodOk : RawItem → Bool) (pkgOk : RawItem → Bool)
    (cur : Option RawItem) (mc : Rat) (P : RawItem) (mods rest : List RawItem)
    (hP : P.itemType = "Product") (hq : prodOk P = true) (h0 : P.unitPrice = 0)
    (hne : mods ≠ []) (hmods : ∀ m ∈ mods, m.itemType = "Modifier" ∧ 0 < m.unitPrice)
    (hrest : rest = [] ∨
      ∃ r rs, rest = r :: rs ∧ (r.itemType = "Product" ∨ r.itemType = "Package")) :
    ∃ tail, resolveGo prodOk (.emit pkgOk) (P :: (mods ++ rest)) cur mc
      = flushItem cur mc ++
          ({ P with unitPrice := (mods.map (·.unitPrice)).sum } :: tail) := by
  have hsum : 0 < (mods.map (·.unitPrice)).sum :=
    mods_sum_pos mods hne (fun m hm => (hmods m hm).2)
  have hback : backfill P (mods.map (·.unitPrice)).sum
      = { P with unitPrice := (mods.map (·.unitPrice)).sum } := by
    rw [backfill, if_pos ⟨h0, hsum⟩]
  rw [resolveGo_product prodOk (.emit pkgOk) P (mods ++ rest) cur mc hP, if_pos hq,
    resolveGo_modifiers prodOk (.emit pkgOk) mods (fun m hm => (hmods m hm).1) rest P 0,
    zero_add]
  rcases hrest with rfl | ⟨r, rs, rfl, hr⟩
  · exact ⟨[], by simp [resolveGo, flushItem, hback]⟩
  · rcases hr with hr | hr
    · refine ⟨(if prodOk r then resolveGo prodOk (.emit pkgOk) rs (some r) 0
          else resolveGo prodOk (.emit pkgOk) rs none 0), ?_⟩
      rw [resolveGo_product prodOk (.emit pkgOk) r rs (some P) _ hr]
      simp [flushItem, hback]
    · refine ⟨(if pkgOk r then [r] else []) ++ resolveGo prodOk (.emit pkgOk) rs none 0, ?_⟩
      simp only [resolveGo, if_pos hr]
      simp [hback]

/-- Two qualifying products with a block of modifiers between them: the first
is flushed with the modifier sum backfilled onto it before the second becomes
the current product, whose accumulated modifier cost restarts at zero. -/
theorem resolveGo_two_products (prodOk : RawItem → Bool) (pm : PkgMode)
    (cur : Option RawItem) (mc : Rat) (P₁ P₂ : RawItem) (mods rest : List RawItem)
    (h1 : P₁.itemType = "Product") (hq1 : prodOk P₁ = true)
    (h2 : P₂.itemType = "Product") (hq2 : prodOk P₂ = true)
    (hmods : ∀ m ∈ mods, m.itemType = "Modifier") :
    resolveGo prodOk pm (P₁ :: (mods ++ P₂ :: rest)) cur mc
      = flushItem cur mc ++
          (backfill P₁ (mods.map (·.unitPrice)).sum
            :: resolveGo prodOk pm rest (some P₂) 0) := by
  rw [resolveGo_product prodOk pm P₁ (mods ++ P₂ :: rest) cur mc h1, if_pos hq1,
    resolveGo_modifiers prodOk pm mods hmods (P₂ :: rest) P₁ 0, zero_add,
    resolveGo_product prodOk pm P₂ rest (some P₁) _ h2, if_pos hq2]
  simp [flushItem]

/-! ### Claim theorems for the modifier resolver -/

/-- C1: For every transaction (line items sorted ascending by itemId)
processed by the modifier resolver, if a qualifying Product with unitAmount
exactly 0 is followed by one or more Modifier rows with positive unitAmount
before the next Product/Package item or the end of the transaction, then the
emitted ResolvedItem's effective unit price equals the sum of those Modifier
rows' unitAmounts.  Stated for the walk of `_resolve_products`
(`build_bar_dashboard.py`) and for the walk of `resolve_all_products`
(`export_dashboards.py`), from any walk state `(cur, mc)` — in particular
from the state reached after any prefix of the transaction. -/
theorem modifier_backfill :
    (∀ (allowed : List String) (cur : Option RawItem) (mc : Rat) (P : RawItem)
        (mods rest : List RawItem),
        P.itemType = "Product" → P.name ∈ allowed → P.department = "Bar" →
        P.unitPrice = 0 → mods ≠ [] →
        (∀ m ∈ mods, m.itemType = "Modifier" ∧ 0 < m.unitPrice) →
        (rest = [] ∨
          ∃ r rs, rest = r :: rs ∧ (r.itemType = "Product" ∨ r.itemType = "Package")) →
        ∃ tail, resolve_products_bar_go allowed (P :: (mods ++ rest)) cur mc
          = flushItem cur mc ++
              ({ P with unitPrice := (mods.map (·.unitPrice)).sum } :: tail))
    ∧ (∀ (cur : Option RawItem) (mc : Rat) (P : RawItem) (mods rest : List RawItem),
        P.itemType = "Product" → P.unitPrice = 0 → mods ≠ [] →
        (∀ m ∈ mods, m.itemType = "Modifier" ∧ 0 < m.unitPrice) →
        (rest = [] ∨
          ∃ r rs, rest = r :: rs ∧ (r.itemType = "Product" ∨ r.itemType = "Package")) →
        ∃ tail, resolve_all_products_go (P :: (mods ++ rest)) cur mc
          = flushItem cur mc ++
              ({ P with unitPrice := (mods.map (·.unitPrice)).sum } :: tail)) := by
  constructor
  · intro allowed cur mc P mods rest hP hname hdept h0 hne hmods hrest
    exact resolveGo_backfilled_emit _ _ cur mc P mods rest hP
      (by simp [hname, hdept]) h0 hne hmods hrest
  · intro cur mc P mods rest hP h0 hne hmods hrest
    exact resolveGo_backfilled_emit _ _ cur mc P mods rest hP rfl h0 hne hmods hrest

/-- Witness for C1 in the shape of spec Scenario A: a zero-priced
"BYO Pizza" product followed by modifiers priced 2 and 1 resolves to an
effective unit price equal to the modifier sum, for both embedded resolver
variants. -/
theorem modifier_backfill_witness :
    (∃ tail,
      resolve_products_bar_go ["BYO Pizza"]
          (byoPizza :: ([modPepperoni, modExtraCheese] ++ [])) none 0
        = flushItem none 0 ++
            ({ byoPizza with
                unitPrice := ([modPepperoni, modExtraCheese].map (·.unitPrice)).sum } :: tail))
    ∧ (∃ tail,
      resolve_all_products_go
          (byoPizza :: ([modPepperoni, modExtraCheese] ++ [])) none 0
        = flushItem none 0 ++
            ({ byoPizza with
                unitPrice := ([modPepperoni, modExtraCheese].map (·.unitPrice)).sum } :: tail)) :=
  ⟨modifier_backfill.1 ["BYO Pizza"] none 0 byoPizza [modPepperoni, modExtraCheese] []
      (by decide) (by decide) (by decide) (by decide) (by decide) (by decide) (Or.inl rfl),
    modifier_backfill.2 none 0 byoPizza [modPepperoni, modExtraCheese] []
      (by decide) (by decide) (by decide) (by decide) (Or.inl rfl)⟩

/-- C2: For every transaction containing two qualifying Products P1 then P2
(P1.itemId < P2.itemId, i.e. P1 precedes P2 in the sorted walk), every
Modifier row between them contributes its unitAmount only to P1's accumulated
modifier cost and never to P2's: P1 is flushed (with the modifier sum
backfilled) before P2 becomes the current product, and P2 starts with
accumulated modifier cost 0.  Stated for the walks of `_resolve_products` in
`build_bar_dashboard.py` and `export_clean_csv.py`. -/
theorem modifier_attribution :
    (∀ (allowed : List String) (cur : Option RawItem) (mc : Rat)
        (P₁ P₂ : RawItem) (mods rest : List RawItem),
        P₁.itemType = "Product" → P₁.name ∈ allowed → P₁.department = "Bar" →
        P₂.itemType = "Product" → P₂.name ∈ allowed → P₂.department = "Bar" →
        (∀ m ∈ mods, m.itemType = "Modifier") →
        resolve_products_bar_go allowed (P₁ :: (mods ++ P₂ :: rest)) cur mc
          = flushItem cur mc ++
              (backfill P₁ (mods.map (·.unitPrice)).sum
                :: resolve_products_bar_go allowed rest (some P₂) 0))
    ∧ (∀ (allowed : List String) (cur : Option RawItem) (mc : Rat)
        (P₁ P₂ : RawItem) (mods rest : List RawItem),
        P₁.itemType = "Product" → P₁.name ∈ allowed → P₁.department = "Food" →
        P₂.itemType = "Product" → P₂.name ∈ allowed → P₂.department = "Food" →
        (∀ m ∈ mods, m.itemType = "Modifier") →
        resolve_products_food_go allowed (P₁ :: (mods ++ P₂ :: rest)) cur mc
          = flushItem cur mc ++
              (backfill P₁ (mods.map (·.unitPrice)).sum
                :: resolve_products_food_go allowed rest (some P₂) 0)) := by
  constructor
  · intro allowed cur mc P₁ P₂ mods rest h1 hn1 hd1 h2 hn2 hd2 hmods
    exact resolveGo_two_products _ _ cur mc P₁ P₂ mods rest h1
      (by simp [hn1, hd1]) h2 (by simp [hn2, hd2]) hmods
  · intro allowed cur mc P₁ P₂ mods rest h1 hn1 hd1 h2 hn2 hd2 hmods
    exact resolveGo_two_products _ _ cur mc P₁ P₂ mods rest h1
      (by simp [hn1, hd1]) h2 (by simp [hn2, hd2]) hmods

/-- Witness for C2: a zero-priced product, two modifiers, then a second
qualifying product — the first product is flushed with modifier sum 3.5
before the second becomes current with cost 0. -/
theorem modifier_attribution_witness :
    resolve_products_bar_go ["BYO Pizza", "Draft Beer"]
        (byoPizza :: ([modPepperoni, modExtraCheese] ++ draftBeer :: [])) none 0
      = flushItem none 0 ++
          (backfill byoPizza ([modPepperoni, modExtraCheese].map (·.unitPrice)).sum
            :: resolve_products_bar_go ["BYO Pizza", "Draft Beer"] [] (some draftBeer) 0) :=
  modifier_attribution.1 ["BYO Pizza", "Draft Beer"] none 0 byoPizza draftBeer
    [modPepperoni, modExtraCheese] [] (by decide) (by decide) (by decide)
    (by decide) (by decide) (by decide) (by decide)

/-! ### Claim theorems for the aggregator (C3, C6) -/

/-- Looking up the updated key after an `alUpdate` yields the function
applied to the previous value (or to the default when absent). -/
theorem alGet_alUpdate {K B : Type} [DecidableEq K] (m : List (K × B))
    (k : K) (d : B) (f : B → B) :
    alGet (alUpdate k d f m) k = some (f ((alGet m k).getD d)) := by
  induction m with
  | nil => simp [alGet, alUpdate]
  | cons kb tl ih =>
    obtain ⟨k', b⟩ := kb
    by_cases h : k' = k
    · subst h; simp [alGet, alUpdate]
    · simp [alGet, alUpdate, h, ih]

/-- Appending one resolved item to the aggregation input performs one more
accumulation step. -/
theorem aggMap_append (ps : List RawItem) (p : RawItem) :
    aggMap (ps ++ [p]) = aggStep (aggMap ps) p := by
  simp [aggMap, List.foldl_append]

/-- C3 (amended): for every resolved item, the revenue the aggregator adds
to its `(name, date, department)` bucket equals the item's total when the
total is nonzero; otherwise quantity times effectiveUnitPrice when the
quantity is NONZERO (Python truthiness, not "greater than 0" as the claim
stated); otherwise effectiveUnitPrice alone. -/
theorem aggregator_revenue_added (ps : List RawItem) (p : RawItem) :
    bucketRevenue (ps ++ [p]) (p.name, p.date, p.department)
      = bucketRevenue ps (p.name, p.date, p.department)
          + (if p.itemTotal ≠ 0 then p.itemTotal
             else if p.qty ≠ 0 then p.unitPrice * p.qty
             else p.unitPrice) := by
  unfold bucketRevenue
  rw [aggMap_append]
  unfold aggStep
  rw [alGet_alUpdate]
  cases h : alGet (aggMap ps) (p.name, p.date, p.department) <;>
    simp [emptyBucket, itemRevenue]

/-- C3 counterexample: on a resolved item with total 0, unit price 5 and
quantity −1 the aggregator adds −5 (code: `qty != 0` branch) while the
claim's rule ("quantity greater than 0") yields 5. -/
theorem aggregator_revenue_counterexample :
    bucketRevenue [refundItem] ("Refund Demo", "2025-10-01", "Bar") = -5
      ∧ claimRevenueC3 refundItem = 5 ∧ (-5 : Rat) ≠ 5 := by
  refine ⟨?_, ?_, by norm_num⟩
  · unfold bucketRevenue aggMap
    norm_num [aggStep, alUpdate, alGet, itemRevenue, refundItem, emptyBucket]
  · norm_num [claimRevenueC3, refundItem]

/-- C6 (amended): for a resolved item aggregated by `aggregate_item_date`,
the category is the override-table entry when nonempty, else the item's
(already prefix-normalized) subdepartment when nonempty, else the literal
department — with no static-fallback-table step and no "Other" default in
this pipeline. -/
theorem category_resolution (overrides : List (String × String)) (p : RawItem)
    (h : p.department ∉ SKIP_DEPARTMENTS) :
    (aggregate_item_date [p] overrides).map (·.category)
      = [if ((alGet overrides p.name).getD "") ≠ ""
         then (alGet overrides p.name).getD ""
         else if p.subdepartment ≠ "" then p.subdepartment else p.department] := by
  by_cases hs : p.subdepartment = "" <;>
    simp [aggregate_item_date, aggMap, aggStep, alUpdate, buildRow, sortRows,
      insertRow, emptyBucket, h, hs]

/-- Witness for the amended C6: a concrete item whose name has an override
entry. -/
theorem category_resolution_witness :
    (aggregate_item_date [draftBeer] [("Draft Beer", "Drafts")]).map (·.category)
      = [if ((alGet [("Draft Beer", "Drafts")] draftBeer.name).getD "") ≠ ""
         then (alGet [("Draft Beer", "Drafts")] draftBeer.name).getD ""
         else if draftBeer.subdepartment ≠ "" then draftBeer.subdepartment
         else draftBeer.department] :=
  category_resolution [("Draft Beer", "Drafts")] draftBeer (by decide)

/-- C6 counterexample: a package item named "Bud Light Bucket" with empty
subdepartment in department "Bar": the pipeline's category is "Bar" (the
department), while the claim's five-step chain yields "Beer Buckets" from
the static fallback table. -/
theorem category_chain_counterexample :
    (aggregate_item_date [budLightBucketRow] []).map (·.category) = ["Bar"]
      ∧ claimCategoryC6 [] "Bud Light Bucket" "" "Bar" = "Beer Buckets" := by
  constructor
  · decide
  · decide

/-! ### Claim theorems for the ISO-week aggregation (C5) -/

/-- The ISO week number produced by `isocalendar` is always at least 1: each
branch of the definition returns 52, 53, 1 or a value already known to be at
least 1. -/
theorem isocalendar_week_pos (dt : Date) : 1 ≤ (isocalendar dt).2 := by
  unfold isocalendar
  dsimp only
  by_cases h1 : (dayOfYear dt - isoWeekday dt + 10) / 7 < 1
  · rw [if_pos h1]
    by_cases h2 : isLongIsoYear (dt.y - 1)
    · rw [if_pos h2]; norm_num
    · rw [if_neg h2]; norm_num
  · rw [if_neg h1]
    by_cases h2 : (dayOfYear dt - isoWeekday dt + 10) / 7
        > (if isLongIsoYear dt.y then (53 : Int) else 52)
    · rw [if_pos h2]
    · rw [if_neg h2]
      simpa using Int.not_lt.mp h1

/-- Every key of an updated association list is the updated key or a key of
the original list. -/
theorem alUpdate_keys {K B : Type} [DecidableEq K] (k : K) (d : B) (f : B → B) :
    ∀ (m : List (K × B)), ∀ k' ∈ (alUpdate k d f m).map Prod.fst,
      k' = k ∨ k' ∈ m.map Prod.fst := by
  intro m
  induction m with
  | nil =>
    intro k' hk'
    simp only [alUpdate, List.map_cons, List.map_nil, List.mem_singleton] at hk'
    exact Or.inl hk'
  | cons kb tl ih =>
    obtain ⟨k₀, b⟩ := kb
    intro k' hk'
    by_cases h : k₀ = k
    · simp only [alUpdate, if_pos h, List.map_cons, List.mem_cons] at hk'
      rcases hk' with rfl | hk'
      · exact Or.inl h
      · exact Or.inr (by rw [List.map_cons]; exact List.mem_cons_of_mem _ hk')
    · simp only [alUpdate, if_neg h, List.map_cons, List.mem_cons] at hk'
      rcases hk' with rfl | hk'
      · exact Or.inr (by rw [List.map_cons]; exact List.mem_cons_self _ _)
      · rcases ih k' hk' with h'' | h''
        · exact Or.inl h''
        · exact Or.inr (by rw [List.map_cons]; exact List.mem_cons_of_mem _ h'')

/-- Bucket-key bound for `build_52week_by_year`, generalised over the
accumulator. -/
theorem build52_foldl_keys (weekly : List (Date × Rat)) :
    ∀ (acc : List ((Int × Int) × Rat)),
      (∀ k ∈ acc.map Prod.fst, 1 ≤ k.2 ∧ k.2 ≤ 52) →
      ∀ k ∈ (weekly.foldl build52Step acc).map Prod.fst, 1 ≤ k.2 ∧ k.2 ≤ 52 := by
  induction weekly with
  | nil => intro acc hacc k hk; exact hacc k hk
  | cons e tl ih =>
    intro acc hacc k hk
    refine ih (build52Step acc e) ?_ k hk
    intro k' hk'
    rcases alUpdate_keys _ _ _ acc k' hk' with rfl | h'
    · constructor
      · exact le_min (isocalendar_week_pos e.1) (by norm_num)
      · exact min_le_right _ _
    · exact hacc k' h'

/-- Appending one weekly entry accumulates its revenue onto its
`(iso year, clamped week)` bucket. -/
theorem build52_append (weekly : List (Date × Rat)) (e : Date × Rat) :
    build_52week_by_year (weekly ++ [e])
      = build52Step (build_52week_by_year weekly) e := by
  simp [build_52week_by_year, List.foldl_append]

/-- Appending one weekly entry accumulates its revenue onto its
`(iso year, clamped week)` bucket. -/
theorem yearWeekRevenue_append (weekly : List (Date × Rat)) (e : Date × Rat) :
    yearWeekRevenue (weekly ++ [e]) ((isocalendar e.1).1, min (isocalendar e.1).2 52)
      = yearWeekRevenue weekly ((isocalendar e.1).1, min (isocalendar e.1).2 52) + e.2 := by
  unfold yearWeekRevenue
  rw [build52_append]
  unfold build52Step
  rw [alGet_alUpdate]
  cases h : alGet (build_52week_by_year weekly)
      ((isocalendar e.1).1, min (isocalendar e.1).2 52) <;> simp [h]

/-- C5: For every week-start date whose ISO calendar week number is 53, the
by-year ISO-week aggregation adds its revenue into bucket 52 of that ISO
year, combining it with any revenue already accumulated there; and every
bucket key produced by `build_52week_by_year` lies in the range 1 to 52. -/
theorem week53_clamped_to_52 :
    (∀ (weekly : List (Date × Rat)) (d : Date) (rev : Rat),
        (isocalendar d).2 = 53 →
        yearWeekRevenue (weekly ++ [(d, rev)]) ((isocalendar d).1, 52)
          = yearWeekRevenue weekly ((isocalendar d).1, 52) + rev)
    ∧ (∀ (weekly : List (Date × Rat)),
        ∀ k ∈ (build_52week_by_year weekly).map Prod.fst, 1 ≤ k.2 ∧ k.2 ≤ 52) := by
  constructor
  · intro weekly d rev h53
    have h := yearWeekRevenue_append weekly (d, rev)
    dsimp only at h
    rw [h53, min_eq_right (by norm_num : (52 : Int) ≤ 53)] at h
    exact h
  · intro weekly
    exact build52_foldl_keys weekly [] (by simp)

/-- Witness for C5: 2020-12-28 lies in ISO week 53 of 2020; adding its
revenue 7 on top of a week-52 entry (2020-12-21, revenue 5) accumulates into
bucket (2020, 52); and the produced keys are in range. -/
theorem week53_clamped_to_52_witness :
    (yearWeekRevenue ([(⟨2020, 12, 21⟩, 5)] ++ [(⟨2020, 12, 28⟩, 7)])
        ((isocalendar ⟨2020, 12, 28⟩).1, 52)
      = yearWeekRevenue [(⟨2020, 12, 21⟩, 5)] ((isocalendar ⟨2020, 12, 28⟩).1, 52) + 7)
    ∧ (1 ≤ ((2020 : Int), (52 : Int)).2 ∧ ((2020 : Int), (52 : Int)).2 ≤ 52) :=
  ⟨week53_clamped_to_52.1 [(⟨2020, 12, 21⟩, 5)] ⟨2020, 12, 28⟩ 7 (by decide),
    week53_clamped_to_52.2 [(⟨2020, 12, 28⟩, 7)] (2020, 52) (by decide)⟩

/-! ### Lemmas about the CSV reader (C4, C9, C10) -/

/-- A row failing the filters is dropped with no other effect. -/
theorem acceptRows_skip_filtered (hTT : Bool) (r : CsvRow) (rs : List CsvRow)
    (seen : List (String × String)) (h : rowPasses hTT r = false) :
    acceptRows hTT (r :: rs) seen = acceptRows hTT rs seen := by
  simp [acceptRows, h]

/-- A row whose key is already seen is dropped with no other effect. -/
theorem acceptRows_skip_dup (hTT : Bool) (r : CsvRow) (rs : List CsvRow)
    (seen : List (String × String)) (h : rowKey r ∈ seen) :
    acceptRows hTT (r :: rs) seen = acceptRows hTT rs seen := by
  by_cases h1 : rowPasses hTT r = false <;> simp [acceptRows, h1, h]

/-- A passing, fresh row is accepted and its key recorded. -/
theorem acceptRows_accept (hTT : Bool) (r : CsvRow) (rs : List CsvRow)
    (seen : List (String × String)) (h1 : rowPasses hTT r = true)
    (h2 : rowKey r ∉ seen) :
    acceptRows hTT (r :: rs) seen
      = (r :: (acceptRows hTT rs (rowKey r :: seen)).1,
          (acceptRows hTT rs (rowKey r :: seen)).2) := by
  simp [acceptRows, h1, h2]

/-- Acceptance distributes over list append, threading the seen-set. -/
theorem acceptRows_append (hTT : Bool) (xs ys : List CsvRow) :
    ∀ seen, acceptRows hTT (xs ++ ys) seen
      = ((acceptRows hTT xs seen).1
            ++ (acceptRows hTT ys (acceptRows hTT xs seen).2).1,
          (acceptRows hTT ys (acceptRows hTT xs seen).2).2) := by
  induction xs with
  | nil => intro seen; simp [acceptRows]
  | cons x xs ih =>
    intro seen
    by_cases h1 : rowPasses hTT x = false
    · rw [List.cons_append, acceptRows_skip_filtered _ _ _ _ h1,
        acceptRows_skip_filtered _ _ _ _ h1, ih]
    · have h1' : rowPasses hTT x = true := by
        cases h : rowPasses hTT x
        · exact absurd h h1
        · rfl
      by_cases h2 : rowKey x ∈ seen
      · rw [List.cons_append, acceptRows_skip_dup _ _ _ _ h2,
          acceptRows_skip_dup _ _ _ _ h2, ih]
      · rw [List.cons_append, acceptRows_accept _ _ _ _ h1' h2,
          acceptRows_accept _ _ _ _ h1' h2, ih]
        simp

/-- If some list element fails to parse, the error-propagating map fails. -/
theorem exceptMap_error_of_mem {A B : Type} (f : A → Except Unit B)
    (l : List A) (a : A) (ha : a ∈ l) (hf : f a = .error ()) :
    exceptMap f l = .error () := by
  induction l with
  | nil => cases ha
  | cons b tl ih =>
    rcases List.mem_cons.mp ha with rfl | ha'
    · unfold exceptMap
      rw [hf]
    · unfold exceptMap
      cases hb : f b with
      | error e => cases e; rfl
      | ok v =>
        rw [ih ha']

/-- Successful error-propagating map: the output is the pointwise parse of
the input. -/
theorem exceptMap_ok_eq {A B : Type} [Inhabited B] (f : A → Except Unit B) :
    ∀ (l : List A) (o : List B), exceptMap f l = .ok o →
      o = l.map (exceptGet f) := by
  intro l
  induction l with
  | nil =>
    intro o h
    simp [exceptMap] at h
    simp [h.symm]
  | cons a tl ih =>
    intro o h
    unfold exceptMap at h
    cases ha : f a with
    | error e => rw [ha] at h; exact absurd h (by simp)
    | ok b =>
      rw [ha] at h
      cases ht : exceptMap f tl with
      | error e => rw [ht] at h; exact absurd h (by simp)
      | ok bs =>
        rw [ht] at h
        cases h
        have hga : exceptGet f a = b := by unfold exceptGet; rw [ha]
        rw [List.map_cons, hga, ← ih bs ht]

/-- Mapping a successfully parsed head element prepends its result. -/
theorem exceptMap_cons_ok {A B : Type} (f : A → Except Unit B) (a : A)
    (l : List A) (b : B) (hf : f a = .ok b) :
    exceptMap f (a :: l) = (exceptMap f l).map (fun bs => b :: bs) := by
  simp only [exceptMap]
  rw [hf]
  cases h : exceptMap f l <;> simp [h, Except.map]

/-- Skipping a filtered row leaves the run's result unchanged. -/
theorem read_rows_skip_filtered (hTT hTot : Bool) (r : CsvRow)
    (rows : List CsvRow) (seen : List (String × String))
    (h : rowPasses hTT r = false) :
    read_all_csvs_rows hTT hTot (r :: rows) seen
      = read_all_csvs_rows hTT hTot rows seen := by
  unfold read_all_csvs_rows
  rw [acceptRows_skip_filtered _ _ _ _ h]

/-- Accepting a passing fresh row prepends its parsed item to the rest of
the run's output. -/
theorem read_rows_accept (hTT hTot : Bool) (r : CsvRow) (rows : List CsvRow)
    (seen : List (String × String)) (item : RawItem)
    (h1 : rowPasses hTT r = true) (h2 : rowKey r ∉ seen)
    (hp : parseRow hTot r = .ok item) :
    read_all_csvs_rows hTT hTot (r :: rows) seen
      = (read_all_csvs_rows hTT hTot rows (rowKey r :: seen)).map
          (fun os => (item :: os.1, os.2)) := by
  unfold read_all_csvs_rows
  rw [acceptRows_accept _ _ _ _ h1 h2]
  dsimp only
  rw [exceptMap_cons_ok _ _ _ _ hp]
  cases h : exceptMap (parseRow hTot) (acceptRows hTT rows (rowKey r :: seen)).1 <;>
    simp [h, Except.map]

/-- The quantity of a successfully parsed row is the value its Quantity cell
parsed to. -/
theorem parseRow_ok_qty (hasTotal : Bool) (r : CsvRow) (item : RawItem) (q : Rat)
    (hq : floatCell r.quantity = .ok q) (hp : parseRow hasTotal r = .ok item) :
    item.qty = q := by
  unfold parseRow at hp
  rw [hq] at hp
  cases hu : floatCell r.unitAmount with
  | error e => rw [hu] at hp; exact absurd hp (by simp)
  | ok u =>
    rw [hu] at hp
    cases ht : (if hasTotal then floatCell r.total else Except.ok 0) with
    | error e => rw [ht] at hp; exact absurd hp (by simp)
    | ok t =>
      rw [ht] at hp
      cases hi : pyInt r.itemId with
      | none => rw [hi] at hp; exact absurd hp (by simp)
      | some iid =>
        rw [hi] at hp
        cases hp
        rfl

/-- The unit price of a successfully parsed row is the value its Unit
Amount cell parsed to. -/
theorem parseRow_ok_unit (hasTotal : Bool) (r : CsvRow) (item : RawItem) (u : Rat)
    (hu : floatCell r.unitAmount = .ok u) (hp : parseRow hasTotal r = .ok item) :
    item.unitPrice = u := by
  unfold parseRow at hp
  cases hq : floatCell r.quantity with
  | error e => rw [hq] at hp; exact absurd hp (by simp)
  | ok q =>
    rw [hq, hu] at hp
    cases ht : (if hasTotal then floatCell r.total else Except.ok 0) with
    | error e => rw [ht] at hp; exact absurd hp (by simp)
    | ok t =>
      rw [ht] at hp
      cases hi : pyInt r.itemId with
      | none => rw [hi] at hp; exact absurd hp (by simp)
      | some iid =>
        rw [hi] at hp
        cases hp
        rfl

/-- The total of a successfully parsed row, when the Total column is
present, is the value its Total cell parsed to. -/
theorem parseRow_ok_total (r : CsvRow) (item : RawItem) (t : Rat)
    (ht : floatCell r.total = .ok t) (hp : parseRow true r = .ok item) :
    item.itemTotal = t := by
  unfold parseRow at hp
  rw [if_pos rfl] at hp
  cases hq : floatCell r.quantity with
  | error e => rw [hq] at hp; exact absurd hp (by simp)
  | ok q =>
    rw [hq] at hp
    cases hu : floatCell r.unitAmount with
    | error e => rw [hu] at hp; exact absurd hp (by simp)
    | ok u =>
      rw [hu, ht] at hp
      cases hi : pyInt r.itemId with
      | none => rw [hi] at hp; exact absurd hp (by simp)
      | some iid =>
        rw [hi] at hp
        cases hp
        rfl

/-- A row whose Quantity, Unit Amount or (present) Total cell fails to
parse fails as a whole. -/
theorem parseRow_error_of_cell (hasTotal : Bool) (r : CsvRow)
    (h : floatCell r.quantity = .error () ∨ floatCell r.unitAmount = .error ()
      ∨ (hasTotal = true ∧ floatCell r.total = .error ())) :
    parseRow hasTotal r = .error () := by
  unfold parseRow
  cases hq : floatCell r.quantity with
  | error e => cases e; rfl
  | ok q =>
    cases hu : floatCell r.unitAmount with
    | error e => cases e; rfl
    | ok u =>
      rcases h with h | h | ⟨ht, h⟩
      · rw [hq] at h; exact absurd h (by simp)
      · rw [hu] at h; exact absurd h (by simp)
      · subst ht
        rw [if_pos rfl, h]

/-- C10: In the multi-file reader, a (Transaction ID, Item ID) key is added
to the dedup seen-set only for rows that pass all row filters; therefore a
later row whose key matches only a previously rejected row is accepted as
new, not dropped as a duplicate. -/
theorem dedup_key_only_for_accepted :
    ∀ (hasTxnType hasTotal : Bool) (r₁ r₂ : CsvRow) (rest : List CsvRow)
      (seen : List (String × String)) (item₂ : RawItem),
      rowPasses hasTxnType r₁ = false →
      rowPasses hasTxnType r₂ = true →
      rowKey r₂ = rowKey r₁ →
      rowKey r₂ ∉ seen →
      parseRow hasTotal r₂ = .ok item₂ →
      read_all_csvs_rows hasTxnType hasTotal (r₁ :: r₂ :: rest) seen
        = (read_all_csvs_rows hasTxnType hasTotal rest (rowKey r₂ :: seen)).map
            (fun os => (item₂ :: os.1, os.2)) := by
  intro hTT hTot r₁ r₂ rest seen item₂ h1 h2 hk hks hp
  rw [read_rows_skip_filtered hTT hTot r₁ (r₂ :: rest) seen h1]
  exact read_rows_accept hTT hTot r₂ rest seen item₂ h2 hks hp

/-- C9: For every float-typed cell (Quantity, Unit Amount, Total) of a row
that passes the row filters: an empty cell parses as 0 and is not fatal
(first conjunct, at the level of the accepted row's emitted item, for each
of the three cells), and a nonempty cell that is not a number makes the
whole run abort with an error rather than being coerced to 0 (second
conjunct, for a bad value in any of the three cells and any position of the
bad row). -/
theorem numeric_cell_policy :
    (∀ (hasTxnType hasTotal : Bool) (r : CsvRow) (rows : List CsvRow)
        (seen : List (String × String)) (item : RawItem),
        rowPasses hasTxnType r = true → rowKey r ∉ seen →
        parseRow hasTotal r = .ok item →
        (r.quantity = "" → item.qty = 0)
        ∧ (r.unitAmount = "" → item.unitPrice = 0)
        ∧ (hasTotal = true → r.total = "" → item.itemTotal = 0)
        ∧ read_all_csvs_rows hasTxnType hasTotal (r :: rows) seen
            = (read_all_csvs_rows hasTxnType hasTotal rows (rowKey r :: seen)).map
                (fun os => (item :: os.1, os.2)))
    ∧ (∀ (hasTxnType hasTotal : Bool) (pre : List CsvRow) (r : CsvRow)
        (post : List CsvRow) (seen : List (String × String)),
        rowPasses hasTxnType r = true →
        rowKey r ∉ (acceptRows hasTxnType pre seen).2 →
        ((r.quantity ≠ "" ∧ pyFloat r.quantity = none)
          ∨ (r.unitAmount ≠ "" ∧ pyFloat r.unitAmount = none)
          ∨ (hasTotal = true ∧ r.total ≠ "" ∧ pyFloat r.total = none)) →
        read_all_csvs_rows hasTxnType hasTotal (pre ++ r :: post) seen
          = .error ()) := by
  constructor
  · intro hTT hTot r rows seen item h1 h2 hp
    refine ⟨?_, ?_, ?_, read_rows_accept hTT hTot r rows seen item h1 h2 hp⟩
    · intro hq
      exact parseRow_ok_qty hTot r item 0 (by rw [hq]; rfl) hp
    · intro hu
      exact parseRow_ok_unit hTot r item 0 (by rw [hu]; rfl) hp
    · intro ht hq
      subst ht
      exact parseRow_ok_total r item 0 (by rw [hq]; rfl) hp
  · intro hTT hTot pre r post seen h1 h2 hbad
    have hpr : parseRow hTot r = .error () := by
      apply parseRow_error_of_cell
      rcases hbad with ⟨hne, hpf⟩ | ⟨hne, hpf⟩ | ⟨ht, hne, hpf⟩
      · exact Or.inl (by unfold floatCell; rw [if_neg hne, hpf])
      · exact Or.inr (Or.inl (by unfold floatCell; rw [if_neg hne, hpf]))
      · exact Or.inr (Or.inr ⟨ht, by unfold floatCell; rw [if_neg hne, hpf]⟩)
    have hmem : r ∈ (acceptRows hTT (pre ++ r :: post) seen).1 := by
      rw [acceptRows_append]
      refine List.mem_append_right _ ?_
      rw [acceptRows_accept _ _ _ _ h1 h2]
      exact List.mem_cons_self _ _
    unfold read_all_csvs_rows
    rw [exceptMap_error_of_mem _ _ r hmem hpr]
    rfl

/-- Witness for C10: a voided row followed by a passing row with the same
key — the second row is accepted and parsed, not dropped. -/
theorem dedup_key_only_for_accepted_witness :
    read_all_csvs_rows true true [csvRowVoided, csvRowGood] []
      = (read_all_csvs_rows true true [] (rowKey csvRowGood :: [])).map
          (fun os => (goodItem :: os.1, os.2)) :=
  dedup_key_only_for_accepted true true csvRowVoided csvRowGood [] [] goodItem
    (by decide) (by decide) (by decide) (by decide) (by decide)

/-- Witness for C9: a row whose Quantity, Unit Amount and Total cells are
all empty parses with quantity, unit price and total 0 and is yielded;
rows with a non-numeric Quantity, Unit Amount or Total cell each abort the
run. -/
theorem numeric_cell_policy_witness :
    (emptyCellsItem.qty = 0 ∧ emptyCellsItem.unitPrice = 0
      ∧ emptyCellsItem.itemTotal = 0
      ∧ read_all_csvs_rows true true [csvRowEmptyCells] []
          = (read_all_csvs_rows true true [] (rowKey csvRowEmptyCells :: [])).map
              (fun os => (emptyCellsItem :: os.1, os.2)))
    ∧ read_all_csvs_rows true true ([] ++ csvRowBadQty :: []) [] = .error ()
    ∧ read_all_csvs_rows true true ([] ++ csvRowBadUnit :: []) [] = .error ()
    ∧ read_all_csvs_rows true true ([] ++ csvRowBadTotal :: []) [] = .error () :=
  ⟨⟨(numeric_cell_policy.1 true true csvRowEmptyCells [] [] emptyCellsItem
        (by decide) (by decide) (by decide)).1 (by decide),
    (numeric_cell_policy.1 true true csvRowEmptyCells [] [] emptyCellsItem
        (by decide) (by decide) (by decide)).2.1 (by decide),
    (numeric_cell_policy.1 true true csvRowEmptyCells [] [] emptyCellsItem
        (by decide) (by decide) (by decide)).2.2.1 rfl (by decide),
    (numeric_cell_policy.1 true true csvRowEmptyCells [] [] emptyCellsItem
        (by decide) (by decide) (by decide)).2.2.2⟩,
    numeric_cell_policy.2 true true [] csvRowBadQty [] [] (by decide) (by decide)
      (Or.inl ⟨by decide, by decide⟩),
    numeric_cell_policy.2 true true [] csvRowBadUnit [] [] (by decide) (by decide)
      (Or.inr (Or.inl ⟨by decide, by decide⟩)),
    numeric_cell_policy.2 true true [] csvRowBadTotal [] [] (by decide) (by decide)
      (Or.inr (Or.inr ⟨rfl, by decide, by decide⟩))⟩

/-- Count of a row among the accepted rows, when any two passing rows of the
input that share a dedup key are identical: each input row is accepted
exactly once if it passes and its key is fresh, and zero times otherwise. -/
theorem acceptRows_count (hTT : Bool) :
    ∀ (L : List CsvRow),
      (∀ x ∈ L, ∀ y ∈ L, rowPasses hTT x = true → rowPasses hTT y = true →
          rowKey x = rowKey y → x = y) →
      ∀ (seen : List (String × String)) (x : CsvRow),
        (acceptRows hTT L seen).1.count x
          = if x ∈ L ∧ rowPasses hTT x = true ∧ rowKey x ∉ seen then 1 else 0 := by
  intro L
  induction L with
  | nil => intro _ seen x; simp [acceptRows]
  | cons r rs ih =>
    intro H seen x
    have H' : ∀ x ∈ rs, ∀ y ∈ rs, rowPasses hTT x = true → rowPasses hTT y = true →
        rowKey x = rowKey y → x = y := fun a ha b hb =>
      H a (List.mem_cons_of_mem _ ha) b (List.mem_cons_of_mem _ hb)
    by_cases h1 : rowPasses hTT r = false
    · rw [acceptRows_skip_filtered _ _ _ _ h1, ih H' seen x]
      by_cases hx : x = r
      · subst hx
        simp [h1]
      · simp [hx]
    · have h1' : rowPasses hTT r = true := by
        cases h : rowPasses hTT r
        · exact absurd h h1
        · rfl
      by_cases h2 : rowKey r ∈ seen
      · rw [acceptRows_skip_dup _ _ _ _ h2, ih H' seen x]
        by_cases hx : x = r
        · subst hx
          simp [h2]
        · simp [hx]
      · rw [acceptRows_accept _ _ _ _ h1' h2]
        dsimp only
        rw [List.count_cons, ih H' (rowKey r :: seen) x]
        by_cases hx : x = r
        · subst hx
          simp [h1', h2]
        · have hkr : x ∈ rs → rowPasses hTT x = true → rowKey x ≠ rowKey r := by
            intro hxin hpx heq
            exact hx (H x (List.mem_cons_of_mem _ hxin) r (List.mem_cons_self _ _)
              hpx h1' heq)
          have hx2 : ¬ r = x := fun h => hx h.symm
          by_cases hxin : x ∈ rs
          · by_cases hpx : rowPasses hTT x = true
            · have hne := hkr hxin hpx
              simp [hx, hx2, hxin, hpx, hne]
            · simp [hx, hx2, hxin, hpx]
          · simp [hx, hx2, hxin]

/-- When passing rows sharing a key are identical, the accepted rows of the
two file orders are permutations of each other. -/
theorem acceptRows_perm (hTT : Bool) (A B : List CsvRow)
    (H : ∀ x ∈ A ++ B, ∀ y ∈ A ++ B, rowPasses hTT x = true →
        rowPasses hTT y = true → rowKey x = rowKey y → x = y) :
    ((acceptRows hTT (A ++ B) []).1).Perm ((acceptRows hTT (B ++ A) []).1) := by
  have H2 : ∀ x ∈ B ++ A, ∀ y ∈ B ++ A, rowPasses hTT x = true →
      rowPasses hTT y = true → rowKey x = rowKey y → x = y := by
    intro a ha b hb
    rw [List.mem_append, or_comm, ← List.mem_append] at ha hb
    exact H a ha b hb
  rw [List.perm_iff_count]
  intro x
  rw [acceptRows_count hTT (A ++ B) H [] x, acceptRows_count hTT (B ++ A) H2 [] x]
  have hmem : (x ∈ A ++ B) ↔ (x ∈ B ++ A) := by
    rw [List.mem_append, List.mem_append, or_comm]
  rw [if_congr (and_congr hmem Iff.rfl) rfl rfl]

/-- Inversion of a successful run into the pointwise parse of its accepted
rows. -/
theorem read_rows_ok_inv (hTT hTot : Bool) (rows : List CsvRow)
    (o : List RawItem) (sf : List (String × String))
    (h : read_all_csvs_rows hTT hTot rows [] = .ok (o, sf)) :
    o = ((acceptRows hTT rows []).1).map (exceptGet (parseRow hTot)) := by
  unfold read_all_csvs_rows at h
  cases he : exceptMap (parseRow hTot) (acceptRows hTT rows []).1 with
  | error e => rw [he] at h; exact absurd h (by simp [Except.map])
  | ok v =>
    rw [he] at h
    simp [Except.map] at h
    rw [← h.1]
    exact exceptMap_ok_eq _ _ v he

/-- C4 (amended): a row whose key is already in the seen-set after some
prefix of files contributes nothing further to the run, so a shared key
contributes exactly once; and provided that rows sharing a dedup key have
identical content, the same items (up to permutation) — hence the same
revenue totals — are produced regardless of the order of the two files. -/
theorem dedup_contributes_once :
    (∀ (hasTxnType hasTotal : Bool) (A : List CsvRow) (r : CsvRow)
        (B : List CsvRow) (seen : List (String × String)),
        rowKey r ∈ (acceptRows hasTxnType A seen).2 →
        read_all_csvs_rows hasTxnType hasTotal (A ++ r :: B) seen
          = read_all_csvs_rows hasTxnType hasTotal (A ++ B) seen)
    ∧ (∀ (hasTxnType hasTotal : Bool) (A B : List CsvRow)
        (o₁ o₂ : List RawItem) (s₁ s₂ : List (String × String)),
        (∀ x ∈ A ++ B, ∀ y ∈ A ++ B, rowPasses hasTxnType x = true →
            rowPasses hasTxnType y = true → rowKey x = rowKey y → x = y) →
        read_all_csvs_rows hasTxnType hasTotal (A ++ B) [] = .ok (o₁, s₁) →
        read_all_csvs_rows hasTxnType hasTotal (B ++ A) [] = .ok (o₂, s₂) →
        o₁.Perm o₂ ∧ (o₁.map itemRevenue).sum = (o₂.map itemRevenue).sum) := by
  constructor
  · intro hTT hTot A r B seen h
    unfold read_all_csvs_rows
    rw [acceptRows_append, acceptRows_append, acceptRows_skip_dup _ _ _ _ h]
  · intro hTT hTot A B o₁ o₂ s₁ s₂ H h₁ h₂
    have e₁ := read_rows_ok_inv hTT hTot (A ++ B) o₁ s₁ h₁
    have e₂ := read_rows_ok_inv hTT hTot (B ++ A) o₂ s₂ h₂
    have hperm : o₁.Perm o₂ := by
      rw [e₁, e₂]
      exact (acceptRows_perm hTT A B H).map _
    exact ⟨hperm, List.Perm.sum_eq (hperm.map itemRevenue)⟩

/-- Witness for the amended C4: the same passing row in both files — the
duplicate is dropped, and both orders produce permuted outputs with equal
revenue totals. -/
theorem dedup_contributes_once_witness :
    (read_all_csvs_rows true true ([csvRowGood] ++ csvRowGood :: []) []
        = read_all_csvs_rows true true ([csvRowGood] ++ []) [])
    ∧ ([goodItem].Perm [goodItem]
        ∧ ([goodItem].map itemRevenue).sum = ([goodItem].map itemRevenue).sum) :=
  ⟨dedup_contributes_once.1 true true [csvRowGood] csvRowGood [] [] (by decide),
    dedup_contributes_once.2 true true [csvRowGood] [csvRowGood]
      [goodItem] [goodItem] [rowKey csvRowGood] [rowKey csvRowGood]
      (by decide) (by decide) (by decide)⟩

/-- C4 counterexample: two files whose rows share the dedup key but differ
in the Total cell — first-occurrence-wins dedup makes the aggregate revenue
total depend on the file order (12 vs 99). -/
theorem dedup_order_counterexample :
    (read_all_csvs_rows true true ([csvRowGood] ++ [csvRowAltTotal]) []).map
        (fun os => (os.1.map itemRevenue).sum) = .ok 12
    ∧ (read_all_csvs_rows true true ([csvRowAltTotal] ++ [csvRowGood]) []).map
        (fun os => (os.1.map itemRevenue).sum) = .ok 99
    ∧ (12 : Rat) ≠ 99 := by
  refine ⟨?_, ?_, by norm_num⟩
  · have h : read_all_csvs_rows true true ([csvRowGood] ++ [csvRowAltTotal]) []
        = .ok ([goodItem], [rowKey csvRowGood]) := by decide
    rw [h]
    show Except.ok ([goodItem].map itemRevenue).sum = _
    norm_num [itemRevenue, goodItem]
  · have h : read_all_csvs_rows true true ([csvRowAltTotal] ++ [csvRowGood]) []
        = .ok ([altTotalItem], [rowKey csvRowAltTotal]) := by decide
    rw [h]
    show Except.ok ([altTotalItem].map itemRevenue).sum = _
    norm_num [itemRevenue, altTotalItem, goodItem]

/-! ### Lemmas for the forecast round trip (C8) -/

/-- Value of a digit character below ten. -/
theorem digitVal_digitChar (k : Nat) (h : k < 10) : digitVal (digitChar k) = k := by
  interval_cases k <;> decide

/-- A digit character below ten passes the digit test. -/
theorem isDig_digitChar (k : Nat) (h : k < 10) : isDig (digitChar k) = true := by
  interval_cases k <;> decide

/-- A digit character is none of the special characters of a float literal
and is not whitespace. -/
theorem isDig_ne_props (c : Char) (h : isDig c = true) :
    c ≠ 'e' ∧ c ≠ 'E' ∧ c ≠ '.' ∧ c ≠ '-' ∧ c ≠ '+' ∧ c.isWhitespace = false := by
  simp only [isDig, Bool.and_eq_true, decide_eq_true_eq] at h
  obtain ⟨h1, h2⟩ := h
  refine ⟨?_, ?_, ?_, ?_, ?_, ?_⟩
  · rintro rfl; exact absurd h2 (by decide)
  · rintro rfl; exact absurd h2 (by decide)
  · rintro rfl; exact absurd h1 (by decide)
  · rintro rfl; exact absurd h1 (by decide)
  · rintro rfl; exact absurd h1 (by decide)
  · cases hw : c.isWhitespace
    · rfl
    · exfalso
      simp only [Char.isWhitespace, Bool.or_eq_true, decide_eq_true_eq, or_assoc] at hw
      rcases hw with rfl | rfl | rfl | rfl <;> exact absurd h1 (by decide)

/-- `dropWhile` is the identity on a list where the predicate never holds. -/
theorem dropWhile_all_neg (p : Char → Bool) :
    ∀ (cs : List Char), (∀ c ∈ cs, p c = false) → cs.dropWhile p = cs := by
  intro cs
  induction cs with
  | nil => intro _; rfl
  | cons c tl _ =>
    intro h
    rw [List.dropWhile_cons, h c (List.mem_cons_self _ _)]
    simp

/-- `takeWhile` keeps everything when the predicate always holds. -/
theorem takeWhile_all_pos (p : Char → Bool) :
    ∀ (cs : List Char), (∀ c ∈ cs, p c = true) → cs.takeWhile p = cs := by
  intro cs
  induction cs with
  | nil => intro _; rfl
  | cons c tl ih =>
    intro h
    rw [List.takeWhile_cons, h c (List.mem_cons_self _ _)]
    simp [ih (fun x hx => h x (List.mem_cons_of_mem _ hx))]

/-- `dropWhile` drops everything when the predicate always holds. -/
theorem dropWhile_all_pos (p : Char → Bool) :
    ∀ (cs : List Char), (∀ c ∈ cs, p c = true) → cs.dropWhile p = [] := by
  intro cs
  induction cs with
  | nil => intro _; rfl
  | cons c tl ih =>
    intro h
    rw [List.dropWhile_cons, h c (List.mem_cons_self _ _)]
    simp [ih (fun x hx => h x (List.mem_cons_of_mem _ hx))]

/-- Whitespace stripping is the identity on whitespace-free strings. -/
theorem stripWs_all_not_ws (cs : List Char)
    (h : ∀ c ∈ cs, c.isWhitespace = false) : stripWs cs = cs := by
  unfold stripWs
  rw [dropWhile_all_neg _ cs h,
    dropWhile_all_neg _ cs.reverse (fun c hc => h c (List.mem_reverse.mp hc)),
    List.reverse_reverse]

/-- Splitting `takeWhile`/`dropWhile` at the first failing element. -/
theorem takeWhile_append_block (p : Char → Bool) :
    ∀ (xs : List Char) (y : Char) (ys : List Char),
      (∀ c ∈ xs, p c = true) → p y = false →
      (xs ++ y :: ys).takeWhile p = xs ∧ (xs ++ y :: ys).dropWhile p = y :: ys := by
  intro xs
  induction xs with
  | nil =>
    intro y ys _ hy
    constructor
    · rw [List.nil_append, List.takeWhile_cons, hy]; rfl
    · rw [List.nil_append, List.dropWhile_cons, hy]; rfl
  | cons x xt ih =>
    intro y ys hxs hy
    have hx := hxs x (List.mem_cons_self _ _)
    obtain ⟨ht, hd⟩ := ih y ys (fun c hc => hxs c (List.mem_cons_of_mem _ hc)) hy
    constructor
    · rw [List.cons_append, List.takeWhile_cons, hx]
      simp [ht]
    · rw [List.cons_append, List.dropWhile_cons, hx]
      simp [hd]

/-- Every character of `natDigits` is a digit. -/
theorem natDigits_all_isDig (n : Nat) : ∀ c ∈ natDigits n, isDig c = true := by
  induction n using Nat.strong_induction_on with
  | _ n ih =>
    rw [natDigits]
    by_cases h : n < 10
    · rw [dif_pos h]
      intro c hc
      rw [List.mem_singleton] at hc
      subst hc
      exact isDig_digitChar n h
    · rw [dif_neg h]
      intro c hc
      rcases List.mem_append.mp hc with hc | hc
      · exact ih (n / 10) (Nat.div_lt_self (by omega) (by norm_num)) c hc
      · rw [List.mem_singleton] at hc
        subst hc
        exact isDig_digitChar _ (Nat.mod_lt _ (by norm_num))

/-- `natDigits` is never empty. -/
theorem natDigits_ne_nil (n : Nat) : natDigits n ≠ [] := by
  rw [natDigits]
  by_cases h : n < 10
  · rw [dif_pos h]; simp
  · rw [dif_neg h]; simp

/-- Reading back the decimal digit string gives the number. -/
theorem digitsVal_natDigits (n : Nat) : digitsVal (natDigits n) = n := by
  induction n using Nat.strong_induction_on with
  | _ n ih =>
    rw [natDigits]
    by_cases h : n < 10
    · rw [dif_pos h]
      simp [digitsVal, digitVal_digitChar n h]
    · rw [dif_neg h]
      have h10 : n / 10 < n := Nat.div_lt_self (by omega) (by norm_num)
      calc digitsVal (natDigits (n / 10) ++ [digitChar (n % 10)])
          = 10 * digitsVal (natDigits (n / 10)) + digitVal (digitChar (n % 10)) := by
            simp [digitsVal, List.foldl_append]
        _ = 10 * (n / 10) + n % 10 := by
            rw [ih (n / 10) h10, digitVal_digitChar _ (Nat.mod_lt _ (by norm_num))]
        _ = n := Nat.div_add_mod n 10

/-- Reading back a two-digit zero-padded field. -/
theorem digitsVal_pad2 (n : Nat) (h : n < 100) : digitsVal (pad2 n) = n := by
  have e : digitsVal (pad2 n) = 10 * (10 * 0 + n / 10) + n % 10 := by
    simp [pad2, digitsVal, digitVal_digitChar (n / 10) (by omega),
      digitVal_digitChar (n % 10) (by omega)]
  rw [e]
  omega

/-- Reading back a four-digit zero-padded field. -/
theorem digitsVal_pad4 (n : Nat) (h : n < 10000) : digitsVal (pad4 n) = n := by
  have e : digitsVal (pad4 n)
      = 10 * (10 * (10 * (10 * 0 + n / 1000) + n / 100 % 10) + n / 10 % 10) + n % 10 := by
    simp [pad4, digitsVal, digitVal_digitChar (n / 1000) (by omega),
      digitVal_digitChar (n / 100 % 10) (by omega),
      digitVal_digitChar (n / 10 % 10) (by omega),
      digitVal_digitChar (n % 10) (by omega)]
  rw [e]
  omega

/-- The two-digit field is all digits. -/
theorem pad2_all_isDig (n : Nat) (h : n < 100) : ∀ c ∈ pad2 n, isDig c = true := by
  intro c hc
  rcases hc with _ | ⟨_, hc⟩
  · exact isDig_digitChar _ (by omega)
  · rcases hc with _ | ⟨_, hc⟩
    · exact isDig_digitChar _ (by omega)
    · cases hc

/-- Parsing the canonical `%Y-%m-%d` rendering recovers the three
components. -/
theorem parseDate_pads (a b c : Nat) (ha : a < 10000) (hb : b < 100) (hc : c < 100) :
    parseDate ⟨pad4 a ++ '-' :: (pad2 b ++ '-' :: pad2 c)⟩
      = some ⟨(a : Int), (b : Int), (c : Int)⟩ := by
  have e : (⟨pad4 a ++ '-' :: (pad2 b ++ '-' :: pad2 c)⟩ : String).data
      = [digitChar (a / 1000), digitChar (a / 100 % 10), digitChar (a / 10 % 10),
         digitChar (a % 10), '-', digitChar (b / 10), digitChar (b % 10), '-',
         digitChar (c / 10), digitChar (c % 10)] := rfl
  unfold parseDate
  rw [e]
  dsimp only
  have hcond : ([digitChar (a / 1000), digitChar (a / 100 % 10), digitChar (a / 10 % 10),
        digitChar (a % 10)].all isDig ∧ ('-' : Char) = '-'
      ∧ [digitChar (b / 10), digitChar (b % 10)].all isDig ∧ ('-' : Char) = '-'
      ∧ [digitChar (c / 10), digitChar (c % 10)].all isDig) := by
    refine ⟨?_, rfl, ?_, rfl, ?_⟩ <;>
      simp [List.all_cons, isDig_digitChar _ (show a / 1000 < 10 by omega),
        isDig_digitChar _ (show a / 100 % 10 < 10 by omega),
        isDig_digitChar _ (show a / 10 % 10 < 10 by omega),
        isDig_digitChar _ (show a % 10 < 10 by omega),
        isDig_digitChar _ (show b / 10 < 10 by omega),
        isDig_digitChar _ (show b % 10 < 10 by omega),
        isDig_digitChar _ (show c / 10 < 10 by omega),
        isDig_digitChar _ (show c % 10 < 10 by omega)]
  rw [if_pos hcond]
  have e4 : [digitChar (a / 1000), digitChar (a / 100 % 10), digitChar (a / 10 % 10),
      digitChar (a % 10)] = pad4 a := rfl
  have eb : [digitChar (b / 10), digitChar (b % 10)] = pad2 b := rfl
  have ec : [digitChar (c / 10), digitChar (c % 10)] = pad2 c := rfl
  rw [e4, eb, ec, digitsVal_pad4 a ha, digitsVal_pad2 b hb, digitsVal_pad2 c hc]

/-- `strptime` inverts `strftime` on in-range dates. -/
theorem parseDate_formatDate (dt : Date) (hy1 : 1 ≤ dt.y) (hy2 : dt.y ≤ 9999)
    (hm1 : 1 ≤ dt.m) (hm2 : dt.m ≤ 12) (hd1 : 1 ≤ dt.d) (hd2 : dt.d ≤ 31) :
    parseDate (formatDate dt) = some dt := by
  obtain ⟨y, m, d⟩ := dt
  simp only at hy1 hy2 hm1 hm2 hd1 hd2
  unfold formatDate
  rw [parseDate_pads y.toNat m.toNat d.toNat (by omega) (by omega) (by omega)]
  have e1 : (y.toNat : Int) = y := by omega
  have e2 : (m.toNat : Int) = m := by omega
  have e3 : (d.toNat : Int) = d := by omega
  rw [e1, e2, e3]

/-- The float parser on a digit string, a dot and a two-digit fraction. -/
theorem parseUnsignedFloat_digits_dot (a b : Nat) (hb : b < 100) :
    parseUnsignedFloat (natDigits a ++ '.' :: pad2 b)
      = some ((a : Rat) + (b : Rat) / 100) := by
  have hdig : ∀ c ∈ natDigits a ++ '.' :: pad2 b,
      (decide (c ≠ 'e') && decide (c ≠ 'E')) = true := by
    intro c hcm
    rcases List.mem_append.mp hcm with hcm | hcm
    · obtain ⟨h1, h2, _⟩ := isDig_ne_props c (natDigits_all_isDig a c hcm)
      simp [h1, h2]
    · rcases hcm with _ | ⟨_, hcm⟩
      · decide
      · obtain ⟨h1, h2, _⟩ := isDig_ne_props c (pad2_all_isDig b hb c hcm)
        simp [h1, h2]
  obtain ⟨ht, hd⟩ := takeWhile_append_block isDig (natDigits a) '.' (pad2 b)
    (natDigits_all_isDig a) (by decide)
  have hfr : (pad2 b).all isDig = true := by
    rw [List.all_eq_true]
    exact pad2_all_isDig b hb
  have hip : (natDigits a).isEmpty = false := by
    cases hnd : natDigits a with
    | nil => exact absurd hnd (natDigits_ne_nil a)
    | cons x xt => rfl
  unfold parseUnsignedFloat
  try dsimp only
  rw [dropWhile_all_pos _ _ hdig]
  try dsimp only
  unfold parseMantissa
  try dsimp only
  rw [ht, hd]
  try dsimp only
  split
  · next heq => exact absurd heq (by simp)
  · next fr heq =>
    injection heq with hdot hfr2
    subst hfr2
    rw [if_pos ⟨hfr, Or.inl (by rw [hip]; decide)⟩]
    try rw [digitsVal_natDigits]
    rw [digitsVal_pad2 b hb]
    have hlen : (pad2 b).length = 2 := rfl
    rw [hlen]
    norm_num
  · next x h1 h2 => exact (h2 (pad2 b) rfl).elim

/-- Splitting a natural number at the hundreds into integer and fractional
parts of a rational. -/
theorem natAbs_split_100 (n : Nat) :
    ((n / 100 : Nat) : Rat) + ((n % 100 : Nat) : Rat) / 100 = (n : Rat) / 100 := by
  have h : n / 100 * 100 + n % 100 = n := by omega
  field_simp
  exact_mod_cast h

/-- `float` inverts the two-decimal fixed formatting, recovering the value
rounded to two decimal places. -/
theorem pyFloat_format2f (q : Rat) : pyFloat (format2f q) = some (round2 q) := by
  have key : ∀ (n : Int),
      pyFloat ⟨(if n < 0 then ['-'] else []) ++ natDigits (n.natAbs / 100)
        ++ '.' :: pad2 (n.natAbs % 100)⟩ = some ((n : Rat) / 100) := by
    intro n
    have hb : n.natAbs % 100 < 100 := Nat.mod_lt _ (by norm_num)
    have hnws : ∀ c ∈ natDigits (n.natAbs / 100) ++ '.' :: pad2 (n.natAbs % 100),
        c.isWhitespace = false := by
      intro c hcm
      rcases List.mem_append.mp hcm with hcm | hcm
      · exact (isDig_ne_props c (natDigits_all_isDig _ c hcm)).2.2.2.2.2
      · rcases hcm with _ | ⟨_, hcm⟩
        · decide
        · exact (isDig_ne_props c (pad2_all_isDig _ hb c hcm)).2.2.2.2.2
    have hval : parseUnsignedFloat (natDigits (n.natAbs / 100)
        ++ '.' :: pad2 (n.natAbs % 100)) = some (((n.natAbs : Nat) : Rat) / 100) := by
      rw [parseUnsignedFloat_digits_dot _ _ hb, natAbs_split_100]
    by_cases hneg : n < 0
    · rw [if_pos hneg]
      unfold pyFloat
      have hdata : (⟨['-'] ++ natDigits (n.natAbs / 100)
          ++ '.' :: pad2 (n.natAbs % 100)⟩ : String).data
          = '-' :: (natDigits (n.natAbs / 100) ++ '.' :: pad2 (n.natAbs % 100)) := rfl
      rw [hdata, stripWs_all_not_ws _ ?hws]
      case hws =>
        intro c hcm
        rcases hcm with _ | ⟨_, hcm⟩
        · decide
        · exact hnws c hcm
      dsimp only
      rw [if_pos rfl, hval]
      have hcast : ((n.natAbs : Nat) : Rat) = -(n : Rat) := by
        rw [Int.cast_natAbs, abs_of_neg hneg]
        push_cast
        ring
      simp only [Option.map_some', Option.some.injEq]
      rw [hcast]
      ring
    · rw [if_neg hneg]
      unfold pyFloat
      have hdata : (⟨[] ++ natDigits (n.natAbs / 100)
          ++ '.' :: pad2 (n.natAbs % 100)⟩ : String).data
          = natDigits (n.natAbs / 100) ++ '.' :: pad2 (n.natAbs % 100) := rfl
      rw [hdata, stripWs_all_not_ws _ hnws]
      have hd0 : ∃ c0 ct, natDigits (n.natAbs / 100) = c0 :: ct ∧ isDig c0 = true := by
        cases hnd : natDigits (n.natAbs / 100) with
        | nil => exact absurd hnd (natDigits_ne_nil _)
        | cons c0 ct =>
          exact ⟨c0, ct, rfl,
            natDigits_all_isDig _ c0 (by rw [hnd]; exact List.mem_cons_self _ _)⟩
      obtain ⟨c0, ct, hnd, hc0⟩ := hd0
      obtain ⟨_, _, _, hcm, hcp, _⟩ := isDig_ne_props c0 hc0
      rw [hnd] at hval ⊢
      simp only [List.cons_append] at hval ⊢
      rw [if_neg hcm, if_neg hcp, hval]
      have hnn : (0 : Int) ≤ n := le_of_not_lt hneg
      have hcast : ((n.natAbs : Nat) : Rat) = (n : Rat) := by
        rw [Int.cast_natAbs, abs_of_nonneg hnn]
      rw [hcast]
  unfold format2f round2
  exact key (roundHalfEven (q * 100))

/-- C8: For every forecast sequence of (week_start, predicted_revenue)
pairs (with calendar-representable dates), writing it with `save_forecast`
and reading the file back with `load_forecast` yields the same ordered
sequence of pairs, with revenue values equal after rounding to 2 decimal
places. -/
theorem forecast_roundtrip :
    ∀ (fw : List (Date × Rat)) (now : String),
      (∀ p ∈ fw, 1 ≤ p.1.y ∧ p.1.y ≤ 9999 ∧ 1 ≤ p.1.m ∧ p.1.m ≤ 12
        ∧ 1 ≤ p.1.d ∧ p.1.d ≤ 31) →
      load_forecast (save_forecast fw now)
        = some (fw.map (fun p => (p.1, round2 p.2))) := by
  intro fw now
  induction fw with
  | nil => intro _; rfl
  | cons p tl ih =>
    intro H
    have Hp := H p (List.mem_cons_self _ _)
    have Htl := fun q hq => H q (List.mem_cons_of_mem _ hq)
    show load_forecast
        ({ week_start := formatDate p.1,
           week_of_year := intStr (min (isocalendar p.1).2 52),
           year := intStr p.1.y,
           predicted_revenue := format2f p.2,
           saved_at := now } :: save_forecast tl now)
      = some ((p.1, round2 p.2) :: tl.map (fun q => (q.1, round2 q.2)))
    unfold load_forecast
    dsimp only
    rw [parseDate_formatDate p.1 Hp.1 Hp.2.1 Hp.2.2.1 Hp.2.2.2.1 Hp.2.2.2.2.1
        Hp.2.2.2.2.2,
      pyFloat_format2f p.2, ih Htl]

/-- Witness for C8 at a concrete one-week forecast. -/
theorem forecast_roundtrip_witness :
    load_forecast (save_forecast [(⟨2026, 1, 5⟩, 100)] "2026-02-01T00:00:00")
      = some ([((⟨2026, 1, 5⟩ : Date), (100 : Rat))].map
          (fun p => (p.1, round2 p.2))) :=
  forecast_roundtrip [(⟨2026, 1, 5⟩, 100)] "2026-02-01T00:00:00" (by decide)

/-! ### Claim theorems about clock dependence (C7) -/

/-- C7 (amended): given the same data inputs, the exported documents are
pure functions of those inputs and the single clock reading, and the clock
reading appears only in the explicit timestamp fields — `generatedAt` in
summary.json and bowling_forecast.json, `saved_at` in the persisted
forecast CSV.  Every other output value is unchanged across runs. -/
theorem clock_only_in_timestamp_fields :
    (∀ (rows : List OutRow) (now now' : String),
        export_summary rows now
          = { export_summary rows now' with generatedAt := now })
    ∧ (∀ (seasonal : List ForecastJsonRow) (weekly : List (Date × Rat))
        (now now' : String),
        export_bowling_forecast_json seasonal weekly now
          = { export_bowling_forecast_json seasonal weekly now' with
                generatedAt := now })
    ∧ (∀ (fw : List (Date × Rat)) (now now' : String),
        (save_forecast fw now).map forecastRowData
            = (save_forecast fw now').map forecastRowData
          ∧ ∀ r ∈ save_forecast fw now, r.saved_at = now) := by
  refine ⟨fun rows now now' => rfl, fun seasonal weekly now now' => rfl,
    fun fw now now' => ⟨?_, ?_⟩⟩
  · simp [save_forecast, forecastRowData, List.map_map]
  · intro r hr
    simp only [save_forecast, List.mem_map] at hr
    obtain ⟨wr, _, rfl⟩ := hr
    rfl

/-- C7 counterexample: summary.json contains a clock-dependent value but no
`saved_at` field at all — two runs over the same (empty) input rows differ,
and the differing value is the `generatedAt` field, so the explicit
`saved_at` timestamp is not the only clock-dependent output value. -/
theorem clock_field_counterexample :
    (export_summary [] "2026-01-01T00:00:00").generatedAt = "2026-01-01T00:00:00"
    ∧ (export_summary [] "2026-01-02T00:00:00").generatedAt = "2026-01-02T00:00:00"
    ∧ export_summary [] "2026-01-01T00:00:00"
        ≠ export_summary [] "2026-01-02T00:00:00" := by
  refine ⟨rfl, rfl, fun h => ?_⟩
  have h2 := congrArg Summary.generatedAt h
  rw [show (export_summary [] "2026-01-01T00:00:00").generatedAt
        = "2026-01-01T00:00:00" from rfl,
    show (export_summary [] "2026-01-02T00:00:00").generatedAt
        = "2026-01-02T00:00:00" from rfl] at h2
  exact absurd h2 (by decide)

end Concourse

